import Mathlib

/-!
Verification development for the Contrast game engine.

The definitions below are shallow embeddings of the C++ sources:
  * `Player`, `TileType`, `Cell`, `Board`, `TileInventory`, `GameState`,
    `Move` mirror the core data model (5x5 board, cells encoded as
    occupant*3+tile).
  * `kMoveTable` is the precomputed move table from
    `core/include/contrast/precomputed_move_table.hpp`, transcribed entry
    by entry (3 tile types x 25 origins, each up to 8 directions of up to
    4 step offsets, padded exactly as in the header).
  * `Rules.legal_moves` mirrors `Rules::legal_moves` (ray walk with the
    encountered-friend flag, then tile-placement expansion).
  * The N-tuple evaluator (`NTuple.to_index`, `NTupleNetwork.evaluate`,
    `NTupleNetwork.td_update`) mirrors `engine/src/ntuple.cpp`; weight
    tables are modelled as total functions `Nat -> Rat` (the spec allows
    replacing the dense float vectors by any equality-preserving map) and
    float arithmetic is modelled by exact rational arithmetic.
  * The board array codec mirrors `apps/web_server/game_session.cpp`.
  * The symmetry operations (`flipH`, `canonical`) are modelled from the
    spec, because `symmetry.hpp/.cpp` is not among the provided sources.
Machine integers in the sources stay well inside their ranges on the 5x5
board, so `Nat`/`Int` model them exactly.
-/

namespace Contrast

inductive Player where
  | none
  | black
  | white
  deriving DecidableEq

inductive TileType where
  | none
  | black
  | gray
  deriving DecidableEq

/-- Integer encoding of Player, as in the C++ enum (None=0, Black=1, White=2). -/
def Player.code : Player → Nat
  | Player.none => 0
  | Player.black => 1
  | Player.white => 2

/-- Integer encoding of TileType, as in the C++ enum (None=0, Black=1, Gray=2). -/
def TileType.code : TileType → Nat
  | TileType.none => 0
  | TileType.black => 1
  | TileType.gray => 2

structure Cell where
  occupant : Player
  tile : TileType
  deriving DecidableEq

def emptyCell : Cell := ⟨Player.none, TileType.none⟩

/-- A board is 25 cells, indexed by linear index i = y*5+x. -/
def Board : Type := Fin 25 → Cell

instance : DecidableEq Board := inferInstanceAs (DecidableEq (Fin 25 → Cell))

/-- Read a cell at a linear index (indices used by the code are always < 25). -/
def Board.get (b : Board) (i : Nat) : Cell :=
  if h : i < 25 then b ⟨i, h⟩ else emptyCell

/-- b.at(x, y) in the C++ code: linear index y*5+x. -/
def Board.atXY (b : Board) (x y : Nat) : Cell := b.get (y * 5 + x)

/-- Read at a signed linear index (the ray walk computes origin + offset as int). -/
def Board.getI (b : Board) (t : Int) : Cell :=
  if 0 ≤ t then b.get t.toNat else emptyCell

/-- Write a cell at a linear index. -/
def Board.set (b : Board) (i : Nat) (c : Cell) : Board :=
  fun j => if j.val = i then c else b j

structure TileInventory where
  black : Nat
  gray : Nat
  deriving DecidableEq

structure Move where
  sx : Nat
  sy : Nat
  dx : Nat
  dy : Nat
  place_tile : Bool
  tx : Nat
  ty : Nat
  tile : TileType
  deriving DecidableEq

structure GameState where
  board : Board
  to_move : Player
  inv_black : TileInventory
  inv_white : TileInventory

/-- s.inventory(p); only ever called with Black or White. -/
def GameState.inventory (s : GameState) (p : Player) : TileInventory :=
  match p with
  | Player.white => s.inv_white
  | _ => s.inv_black

/-- PrecomputedDirection from precomputed_move_table.hpp: a step count and
the (padded, length-4) list of linear index offsets. -/
structure PrecomputedDirection where
  step_count : Nat
  rel_index : List Int
  deriving DecidableEq

/-- MoveTableEntry: a direction count and the (padded, length-8) direction list. -/
structure MoveTableEntry where
  dir_count : Nat
  dirs : List PrecomputedDirection
  deriving DecidableEq

def defaultEntry : MoveTableEntry := ⟨0, []⟩

def kMoveTable : List (List MoveTableEntry) := [
  [
    ⟨4, [⟨4, [1, 2, 3, 4]⟩, ⟨0, [0, 0, 0, 0]⟩, ⟨4, [5, 10, 15, 20]⟩, ⟨0, [0, 0, 0, 0]⟩, ⟨0, [0, 0, 0, 0]⟩, ⟨0, [0, 0, 0, 0]⟩, ⟨0, [0, 0, 0, 0]⟩, ⟨0, [0, 0, 0, 0]⟩]⟩,
    ⟨4, [⟨3, [1, 2, 3, 0]⟩, ⟨1, [-1, 0, 0, 0]⟩, ⟨4, [5, 10, 15, 20]⟩, ⟨0, [0, 0, 0, 0]⟩, ⟨0, [0, 0, 0, 0]⟩, ⟨0, [0, 0, 0, 0]⟩, ⟨0, [0, 0, 0, 0]⟩, ⟨0, [0, 0, 0, 0]⟩]⟩,
    ⟨4, [⟨2, [1, 2, 0, 0]⟩, ⟨2, [-1, -2, 0, 0]⟩, ⟨4, [5, 10, 15, 20]⟩, ⟨0, [0, 0, 0, 0]⟩, ⟨0, [0, 0, 0, 0]⟩, ⟨0, [0, 0, 0, 0]⟩, ⟨0, [0, 0, 0, 0]⟩, ⟨0, [0, 0, 0, 0]⟩]⟩,
    ⟨4, [⟨1, [1, 0, 0, 0]⟩, ⟨3, [-1, -2, -3, 0]⟩, ⟨4, [5, 10, 15, 20]⟩, ⟨0, [0, 0, 0, 0]⟩, ⟨0, [0, 0, 0, 0]⟩, ⟨0, [0, 0, 0, 0]⟩, ⟨0, [0, 0, 0, 0]⟩, ⟨0, [0, 0, 0, 0]⟩]⟩,
    ⟨4, [⟨0, [0, 0, 0, 0]⟩, ⟨4, [-1, -2, -3, -4]⟩, ⟨4, [5, 10, 15, 20]⟩, ⟨0, [0, 0, 0, 0]⟩, ⟨0, [0, 0, 0, 0]⟩, ⟨0, [0, 0, 0, 0]⟩, ⟨0, [0, 0, 0, 0]⟩, ⟨0, [0, 0, 0, 0]⟩]⟩,
    ⟨4, [⟨4, [1, 2, 3, 4]⟩, ⟨0, [0, 0, 0, 0]⟩, ⟨3, [5, 10, 15, 0]⟩, ⟨1, [-5, 0, 0, 0]⟩, ⟨0, [0, 0, 0, 0]⟩, ⟨0, [0, 0, 0, 0]⟩, ⟨0, [0, 0, 0, 0]⟩, ⟨0, [0, 0, 0, 0]⟩]⟩,
    ⟨4, [⟨3, [1, 2, 3, 0]⟩, ⟨1, [-1, 0, 0, 0]⟩, ⟨3, [5, 10, 15, 0]⟩, ⟨1, [-5, 0, 0, 0]⟩, ⟨0, [0, 0, 0, 0]⟩, ⟨0, [0, 0, 0, 0]⟩, ⟨0, [0, 0, 0, 0]⟩, ⟨0, [0, 0, 0, 0]⟩]⟩,
    ⟨4, [⟨2, [1, 2, 0, 0]⟩, ⟨2, [-1, -2, 0, 0]⟩, ⟨3, [5, 10, 15, 0]⟩, ⟨1, [-5, 0, 0, 0]⟩, ⟨0, [0, 0, 0, 0]⟩, ⟨0, [0, 0, 0, 0]⟩, ⟨0, [0, 0, 0, 0]⟩, ⟨0, [0, 0, 0, 0]⟩]⟩,
    ⟨4, [⟨1, [1, 0, 0, 0]⟩, ⟨3, [-1, -2, -3, 0]⟩, ⟨3, [5, 10, 15, 0]⟩, ⟨1, [-5, 0, 0, 0]⟩, ⟨0, [0, 0, 0, 0]⟩, ⟨0, [0, 0, 0, 0]⟩, ⟨0, [0, 0, 0, 0]⟩, ⟨0, [0, 0, 0, 0]⟩]⟩,
    ⟨4, [⟨0, [0, 0, 0, 0]⟩, ⟨4, [-1, -2, -3, -4]⟩, ⟨3, [5, 10, 15, 0]⟩, ⟨1, [-5, 0, 0, 0]⟩, ⟨0, [0, 0, 0, 0]⟩, ⟨0, [0, 0, 0, 0]⟩, ⟨0, [0, 0, 0, 0]⟩, ⟨0, [0, 0, 0, 0]⟩]⟩,
    ⟨4, [⟨4, [1, 2, 3, 4]⟩, ⟨0, [0, 0, 0, 0]⟩, ⟨2, [5, 10, 0, 0]⟩, ⟨2, [-5, -10, 0, 0]⟩, ⟨0, [0, 0, 0, 0]⟩, ⟨0, [0, 0, 0, 0]⟩, ⟨0, [0, 0, 0, 0]⟩, ⟨0, [0, 0, 0, 0]⟩]⟩,
    ⟨4, [⟨3, [1, 2, 3, 0]⟩, ⟨1, [-1, 0, 0, 0]⟩, ⟨2, [5, 10, 0, 0]⟩, ⟨2, [-5, -10, 0, 0]⟩, ⟨0, [0, 0, 0, 0]⟩, ⟨0, [0, 0, 0, 0]⟩, ⟨0, [0, 0, 0, 0]⟩, ⟨0, [0, 0, 0, 0]⟩]⟩,
    ⟨4, [⟨2, [1, 2, 0, 0]⟩, ⟨2, [-1, -2, 0, 0]⟩, ⟨2, [5, 10, 0, 0]⟩, ⟨2, [-5, -10, 0, 0]⟩, ⟨0, [0, 0, 0, 0]⟩, ⟨0, [0, 0, 0, 0]⟩, ⟨0, [0, 0, 0, 0]⟩, ⟨0, [0, 0, 0, 0]⟩]⟩,
    ⟨4, [⟨1, [1, 0, 0, 0]⟩, ⟨3, [-1, -2, -3, 0]⟩, ⟨2, [5, 10, 0, 0]⟩, ⟨2, [-5, -10, 0, 0]⟩, ⟨0, [0, 0, 0, 0]⟩, ⟨0, [0, 0, 0, 0]⟩, ⟨0, [0, 0, 0, 0]⟩, ⟨0, [0, 0, 0, 0]⟩]⟩,
    ⟨4, [⟨0, [0, 0, 0, 0]⟩, ⟨4, [-1, -2, -3, -4]⟩, ⟨2, [5, 10, 0, 0]⟩, ⟨2, [-5, -10, 0, 0]⟩, ⟨0, [0, 0, 0, 0]⟩, ⟨0, [0, 0, 0, 0]⟩, ⟨0, [0, 0, 0, 0]⟩, ⟨0, [0, 0, 0, 0]⟩]⟩,
    ⟨4, [⟨4, [1, 2, 3, 4]⟩, ⟨0, [0, 0, 0, 0]⟩, ⟨1, [5, 0, 0, 0]⟩, ⟨3, [-5, -10, -15, 0]⟩, ⟨0, [0, 0, 0, 0]⟩, ⟨0, [0, 0, 0, 0]⟩, ⟨0, [0, 0, 0, 0]⟩, ⟨0, [0, 0, 0, 0]⟩]⟩,
    ⟨4, [⟨3, [1, 2, 3, 0]⟩, ⟨1, [-1, 0, 0, 0]⟩, ⟨1, [5, 0, 0, 0]⟩, ⟨3, [-5, -10, -15, 0]⟩, ⟨0, [0, 0, 0, 0]⟩, ⟨0, [0, 0, 0, 0]⟩, ⟨0, [0, 0, 0, 0]⟩, ⟨0, [0, 0, 0, 0]⟩]⟩,
    ⟨4, [⟨2, [1, 2, 0, 0]⟩, ⟨2, [-1, -2, 0, 0]⟩, ⟨1, [5, 0, 0, 0]⟩, ⟨3, [-5, -10, -15, 0]⟩, ⟨0, [0, 0, 0, 0]⟩, ⟨0, [0, 0, 0, 0]⟩, ⟨0, [0, 0, 0, 0]⟩, ⟨0, [0, 0, 0, 0]⟩]⟩,
    ⟨4, [⟨1, [1, 0, 0, 0]⟩, ⟨3, [-1, -2, -3, 0]⟩, ⟨1, [5, 0, 0, 0]⟩, ⟨3, [-5, -10, -15, 0]⟩, ⟨0, [0, 0, 0, 0]⟩, ⟨0, [0, 0, 0, 0]⟩, ⟨0, [0, 0, 0, 0]⟩, ⟨0, [0, 0, 0, 0]⟩]⟩,
    ⟨4, [⟨0, [0, 0, 0, 0]⟩, ⟨4, [-1, -2, -3, -4]⟩, ⟨1, [5, 0, 0, 0]⟩, ⟨3, [-5, -10, -15, 0]⟩, ⟨0, [0, 0, 0, 0]⟩, ⟨0, [0, 0, 0, 0]⟩, ⟨0, [0, 0, 0, 0]⟩, ⟨0, [0, 0, 0, 0]⟩]⟩,
    ⟨4, [⟨4, [1, 2, 3, 4]⟩, ⟨0, [0, 0, 0, 0]⟩, ⟨0, [0, 0, 0, 0]⟩, ⟨4, [-5, -10, -15, -20]⟩, ⟨0, [0, 0, 0, 0]⟩, ⟨0, [0, 0, 0, 0]⟩, ⟨0, [0, 0, 0, 0]⟩, ⟨0, [0, 0, 0, 0]⟩]⟩,
    ⟨4, [⟨3, [1, 2, 3, 0]⟩, ⟨1, [-1, 0, 0, 0]⟩, ⟨0, [0, 0, 0, 0]⟩, ⟨4, [-5, -10, -15, -20]⟩, ⟨0, [0, 0, 0, 0]⟩, ⟨0, [0, 0, 0, 0]⟩, ⟨0, [0, 0, 0, 0]⟩, ⟨0, [0, 0, 0, 0]⟩]⟩,
    ⟨4, [⟨2, [1, 2, 0, 0]⟩, ⟨2, [-1, -2, 0, 0]⟩, ⟨0, [0, 0, 0, 0]⟩, ⟨4, [-5, -10, -15, -20]⟩, ⟨0, [0, 0, 0, 0]⟩, ⟨0, [0, 0, 0, 0]⟩, ⟨0, [0, 0, 0, 0]⟩, ⟨0, [0, 0, 0, 0]⟩]⟩,
    ⟨4, [⟨1, [1, 0, 0, 0]⟩, ⟨3, [-1, -2, -3, 0]⟩, ⟨0, [0, 0, 0, 0]⟩, ⟨4, [-5, -10, -15, -20]⟩, ⟨0, [0, 0, 0, 0]⟩, ⟨0, [0, 0, 0, 0]⟩, ⟨0, [0, 0, 0, 0]⟩, ⟨0, [0, 0, 0, 0]⟩]⟩,
    ⟨4, [⟨0, [0, 0, 0, 0]⟩, ⟨4, [-1, -2, -3, -4]⟩, ⟨0, [0, 0, 0, 0]⟩, ⟨4, [-5, -10, -15, -20]⟩, ⟨0, [0, 0, 0, 0]⟩, ⟨0, [0, 0, 0, 0]⟩, ⟨0, [0, 0, 0, 0]⟩, ⟨0, [0, 0, 0, 0]⟩]⟩
  ],
  [
    ⟨4, [⟨4, [6, 12, 18, 24]⟩, ⟨0, [0, 0, 0, 0]⟩, ⟨0, [0, 0, 0, 0]⟩, ⟨0, [0, 0, 0, 0]⟩, ⟨0, [0, 0, 0, 0]⟩, ⟨0, [0, 0, 0, 0]⟩, ⟨0, [0, 0, 0, 0]⟩, ⟨0, [0, 0, 0, 0]⟩]⟩,
    ⟨4, [⟨3, [6, 12, 18, 0]⟩, ⟨0, [0, 0, 0, 0]⟩, ⟨1, [4, 0, 0, 0]⟩, ⟨0, [0, 0, 0, 0]⟩, ⟨0, [0, 0, 0, 0]⟩, ⟨0, [0, 0, 0, 0]⟩, ⟨0, [0, 0, 0, 0]⟩, ⟨0, [0, 0, 0, 0]⟩]⟩,
    ⟨4, [⟨2, [6, 12, 0, 0]⟩, ⟨0, [0, 0, 0, 0]⟩, ⟨2, [4, 8, 0, 0]⟩, ⟨0, [0, 0, 0, 0]⟩, ⟨0, [0, 0, 0, 0]⟩, ⟨0, [0, 0, 0, 0]⟩, ⟨0, [0, 0, 0, 0]⟩, ⟨0, [0, 0, 0, 0]⟩]⟩,
    ⟨4, [⟨1, [6, 0, 0, 0]⟩, ⟨0, [0, 0, 0, 0]⟩, ⟨3, [4, 8, 12, 0]⟩, ⟨0, [0, 0, 0, 0]⟩, ⟨0, [0, 0, 0, 0]⟩, ⟨0, [0, 0, 0, 0]⟩, ⟨0, [0, 0, 0, 0]⟩, ⟨0, [0, 0, 0, 0]⟩]⟩,
    ⟨4, [⟨0, [0, 0, 0, 0]⟩, ⟨0, [0, 0, 0, 0]⟩, ⟨4, [4, 8, 12, 16]⟩, ⟨0, [0, 0, 0, 0]⟩, ⟨0, [0, 0, 0, 0]⟩, ⟨0, [0, 0, 0, 0]⟩, ⟨0, [0, 0, 0, 0]⟩, ⟨0, [0, 0, 0, 0]⟩]⟩,
    ⟨4, [⟨3, [6, 12, 18, 0]⟩, ⟨1, [-4, 0, 0, 0]⟩, ⟨0, [0, 0, 0, 0]⟩, ⟨0, [0, 0, 0, 0]⟩, ⟨0, [0, 0, 0, 0]⟩, ⟨0, [0, 0, 0, 0]⟩, ⟨0, [0, 0, 0, 0]⟩, ⟨0, [0, 0, 0, 0]⟩]⟩,
    ⟨4, [⟨3, [6, 12, 18, 0]⟩, ⟨1, [-4, 0, 0, 0]⟩, ⟨1, [4, 0, 0, 0]⟩, ⟨1, [-6, 0, 0, 0]⟩, ⟨0, [0, 0, 0, 0]⟩, ⟨0, [0, 0, 0, 0]⟩, ⟨0, [0, 0, 0, 0]⟩, ⟨0, [0, 0, 0, 0]⟩]⟩,
    ⟨4, [⟨2, [6, 12, 0, 0]⟩, ⟨1, [-4, 0, 0, 0]⟩, ⟨2, [4, 8, 0, 0]⟩, ⟨1, [-6, 0, 0, 0]⟩, ⟨0, [0, 0, 0, 0]⟩, ⟨0, [0, 0, 0, 0]⟩, ⟨0, [0, 0, 0, 0]⟩, ⟨0, [0, 0, 0, 0]⟩]⟩,
    ⟨4, [⟨1, [6, 0, 0, 0]⟩, ⟨1, [-4, 0, 0, 0]⟩, ⟨3, [4, 8, 12, 0]⟩, ⟨1, [-6, 0, 0, 0]⟩, ⟨0, [0, 0, 0, 0]⟩, ⟨0, [0, 0, 0, 0]⟩, ⟨0, [0, 0, 0, 0]⟩, ⟨0, [0, 0, 0, 0]⟩]⟩,
    ⟨4, [⟨0, [0, 0, 0, 0]⟩, ⟨0, [0, 0, 0, 0]⟩, ⟨3, [4, 8, 12, 0]⟩, ⟨1, [-6, 0, 0, 0]⟩, ⟨0, [0, 0, 0, 0]⟩, ⟨0, [0, 0, 0, 0]⟩, ⟨0, [0, 0, 0, 0]⟩, ⟨0, [0, 0, 0, 0]⟩]⟩,
    ⟨4, [⟨2, [6, 12, 0, 0]⟩, ⟨2, [-4, -8, 0, 0]⟩, ⟨0, [0, 0, 0, 0]⟩, ⟨0, [0, 0, 0, 0]⟩, ⟨0, [0, 0, 0, 0]⟩, ⟨0, [0, 0, 0, 0]⟩, ⟨0, [0, 0, 0, 0]⟩, ⟨0, [0, 0, 0, 0]⟩]⟩,
    ⟨4, [⟨2, [6, 12, 0, 0]⟩, ⟨2, [-4, -8, 0, 0]⟩, ⟨1, [4, 0, 0, 0]⟩, ⟨1, [-6, 0, 0, 0]⟩, ⟨0, [0, 0, 0, 0]⟩, ⟨0, [0, 0, 0, 0]⟩, ⟨0, [0, 0, 0, 0]⟩, ⟨0, [0, 0, 0, 0]⟩]⟩,
    ⟨4, [⟨2, [6, 12, 0, 0]⟩, ⟨2, [-4, -8, 0, 0]⟩, ⟨2, [4, 8, 0, 0]⟩, ⟨2, [-6, -12, 0, 0]⟩, ⟨0, [0, 0, 0, 0]⟩, ⟨0, [0, 0, 0, 0]⟩, ⟨0, [0, 0, 0, 0]⟩, ⟨0, [0, 0, 0, 0]⟩]⟩,
    ⟨4, [⟨1, [6, 0, 0, 0]⟩, ⟨1, [-4, 0, 0, 0]⟩, ⟨2, [4, 8, 0, 0]⟩, ⟨2, [-6, -12, 0, 0]⟩, ⟨0, [0, 0, 0, 0]⟩, ⟨0, [0, 0, 0, 0]⟩, ⟨0, [0, 0, 0, 0]⟩, ⟨0, [0, 0, 0, 0]⟩]⟩,
    ⟨4, [⟨0, [0, 0, 0, 0]⟩, ⟨0, [0, 0, 0, 0]⟩, ⟨2, [4, 8, 0, 0]⟩, ⟨2, [-6, -12, 0, 0]⟩, ⟨0, [0, 0, 0, 0]⟩, ⟨0, [0, 0, 0, 0]⟩, ⟨0, [0, 0, 0, 0]⟩, ⟨0, [0, 0, 0, 0]⟩]⟩,
    ⟨4, [⟨1, [6, 0, 0, 0]⟩, ⟨3, [-4, -8, -12, 0]⟩, ⟨0, [0, 0, 0, 0]⟩, ⟨0, [0, 0, 0, 0]⟩, ⟨0, [0, 0, 0, 0]⟩, ⟨0, [0, 0, 0, 0]⟩, ⟨0, [0, 0, 0, 0]⟩, ⟨0, [0, 0, 0, 0]⟩]⟩,
    ⟨4, [⟨1, [6, 0, 0, 0]⟩, ⟨3, [-4, -8, -12, 0]⟩, ⟨1, [4, 0, 0, 0]⟩, ⟨1, [-6, 0, 0, 0]⟩, ⟨0, [0, 0, 0, 0]⟩, ⟨0, [0, 0, 0, 0]⟩, ⟨0, [0, 0, 0, 0]⟩, ⟨0, [0, 0, 0, 0]⟩]⟩,
    ⟨4, [⟨1, [6, 0, 0, 0]⟩, ⟨2, [-4, -8, 0, 0]⟩, ⟨1, [4, 0, 0, 0]⟩, ⟨2, [-6, -12, 0, 0]⟩, ⟨0, [0, 0, 0, 0]⟩, ⟨0, [0, 0, 0, 0]⟩, ⟨0, [0, 0, 0, 0]⟩, ⟨0, [0, 0, 0, 0]⟩]⟩,
    ⟨4, [⟨1, [6, 0, 0, 0]⟩, ⟨1, [-4, 0, 0, 0]⟩, ⟨1, [4, 0, 0, 0]⟩, ⟨3, [-6, -12, -18, 0]⟩, ⟨0, [0, 0, 0, 0]⟩, ⟨0, [0, 0, 0, 0]⟩, ⟨0, [0, 0, 0, 0]⟩, ⟨0, [0, 0, 0, 0]⟩]⟩,
    ⟨4, [⟨0, [0, 0, 0, 0]⟩, ⟨0, [0, 0, 0, 0]⟩, ⟨1, [4, 0, 0, 0]⟩, ⟨3, [-6, -12, -18, 0]⟩, ⟨0, [0, 0, 0, 0]⟩, ⟨0, [0, 0, 0, 0]⟩, ⟨0, [0, 0, 0, 0]⟩, ⟨0, [0, 0, 0, 0]⟩]⟩,
    ⟨4, [⟨0, [0, 0, 0, 0]⟩, ⟨4, [-4, -8, -12, -16]⟩, ⟨0, [0, 0, 0, 0]⟩, ⟨0, [0, 0, 0, 0]⟩, ⟨0, [0, 0, 0, 0]⟩, ⟨0, [0, 0, 0, 0]⟩, ⟨0, [0, 0, 0, 0]⟩, ⟨0, [0, 0, 0, 0]⟩]⟩,
    ⟨4, [⟨0, [0, 0, 0, 0]⟩, ⟨3, [-4, -8, -12, 0]⟩, ⟨0, [0, 0, 0, 0]⟩, ⟨1, [-6, 0, 0, 0]⟩, ⟨0, [0, 0, 0, 0]⟩, ⟨0, [0, 0, 0, 0]⟩, ⟨0, [0, 0, 0, 0]⟩, ⟨0, [0, 0, 0, 0]⟩]⟩,
    ⟨4, [⟨0, [0, 0, 0, 0]⟩, ⟨2, [-4, -8, 0, 0]⟩, ⟨0, [0, 0, 0, 0]⟩, ⟨2, [-6, -12, 0, 0]⟩, ⟨0, [0, 0, 0, 0]⟩, ⟨0, [0, 0, 0, 0]⟩, ⟨0, [0, 0, 0, 0]⟩, ⟨0, [0, 0, 0, 0]⟩]⟩,
    ⟨4, [⟨0, [0, 0, 0, 0]⟩, ⟨1, [-4, 0, 0, 0]⟩, ⟨0, [0, 0, 0, 0]⟩, ⟨3, [-6, -12, -18, 0]⟩, ⟨0, [0, 0, 0, 0]⟩, ⟨0, [0, 0, 0, 0]⟩, ⟨0, [0, 0, 0, 0]⟩, ⟨0, [0, 0, 0, 0]⟩]⟩,
    ⟨4, [⟨0, [0, 0, 0, 0]⟩, ⟨0, [0, 0, 0, 0]⟩, ⟨0, [0, 0, 0, 0]⟩, ⟨4, [-6, -12, -18, -24]⟩, ⟨0, [0, 0, 0, 0]⟩, ⟨0, [0, 0, 0, 0]⟩, ⟨0, [0, 0, 0, 0]⟩, ⟨0, [0, 0, 0, 0]⟩]⟩
  ],
  [
    ⟨8, [⟨4, [1, 2, 3, 4]⟩, ⟨0, [0, 0, 0, 0]⟩, ⟨4, [5, 10, 15, 20]⟩, ⟨0, [0, 0, 0, 0]⟩, ⟨4, [6, 12, 18, 24]⟩, ⟨0, [0, 0, 0, 0]⟩, ⟨0, [0, 0, 0, 0]⟩, ⟨0, [0, 0, 0, 0]⟩]⟩,
    ⟨8, [⟨3, [1, 2, 3, 0]⟩, ⟨1, [-1, 0, 0, 0]⟩, ⟨4, [5, 10, 15, 20]⟩, ⟨0, [0, 0, 0, 0]⟩, ⟨3, [6, 12, 18, 0]⟩, ⟨0, [0, 0, 0, 0]⟩, ⟨1, [4, 0, 0, 0]⟩, ⟨0, [0, 0, 0, 0]⟩]⟩,
    ⟨8, [⟨2, [1, 2, 0, 0]⟩, ⟨2, [-1, -2, 0, 0]⟩, ⟨4, [5, 10, 15, 20]⟩, ⟨0, [0, 0, 0, 0]⟩, ⟨2, [6, 12, 0, 0]⟩, ⟨0, [0, 0, 0, 0]⟩, ⟨2, [4, 8, 0, 0]⟩, ⟨0, [0, 0, 0, 0]⟩]⟩,
    ⟨8, [⟨1, [1, 0, 0, 0]⟩, ⟨3, [-1, -2, -3, 0]⟩, ⟨4, [5, 10, 15, 20]⟩, ⟨0, [0, 0, 0, 0]⟩, ⟨1, [6, 0, 0, 0]⟩, ⟨0, [0, 0, 0, 0]⟩, ⟨3, [4, 8, 12, 0]⟩, ⟨0, [0, 0, 0, 0]⟩]⟩,
    ⟨8, [⟨0, [0, 0, 0, 0]⟩, ⟨4, [-1, -2, -3, -4]⟩, ⟨4, [5, 10, 15, 20]⟩, ⟨0, [0, 0, 0, 0]⟩, ⟨0, [0, 0, 0, 0]⟩, ⟨0, [0, 0, 0, 0]⟩, ⟨4, [4, 8, 12, 16]⟩, ⟨0, [0, 0, 0, 0]⟩]⟩,
    ⟨8, [⟨4, [1, 2, 3, 4]⟩, ⟨0, [0, 0, 0, 0]⟩, ⟨3, [5, 10, 15, 0]⟩, ⟨1, [-5, 0, 0, 0]⟩, ⟨3, [6, 12, 18, 0]⟩, ⟨1, [-4, 0, 0, 0]⟩, ⟨0, [0, 0, 0, 0]⟩, ⟨0, [0, 0, 0, 0]⟩]⟩,
    ⟨8, [⟨3, [1, 2, 3, 0]⟩, ⟨1, [-1, 0, 0, 0]⟩, ⟨3, [5, 10, 15, 0]⟩, ⟨1, [-5, 0, 0, 0]⟩, ⟨3, [6, 12, 18, 0]⟩, ⟨1, [-4, 0, 0, 0]⟩, ⟨1, [4, 0, 0, 0]⟩, ⟨1, [-6, 0, 0, 0]⟩]⟩,
    ⟨8, [⟨2, [1, 2, 0, 0]⟩, ⟨2, [-1, -2, 0, 0]⟩, ⟨3, [5, 10, 15, 0]⟩, ⟨1, [-5, 0, 0, 0]⟩, ⟨2, [6, 12, 0, 0]⟩, ⟨1, [-4, 0, 0, 0]⟩, ⟨2, [4, 8, 0, 0]⟩, ⟨1, [-6, 0, 0, 0]⟩]⟩,
    ⟨8, [⟨1, [1, 0, 0, 0]⟩, ⟨3, [-1, -2, -3, 0]⟩, ⟨3, [5, 10, 15, 0]⟩, ⟨1, [-5, 0, 0, 0]⟩, ⟨1, [6, 0, 0, 0]⟩, ⟨1, [-4, 0, 0, 0]⟩, ⟨3, [4, 8, 12, 0]⟩, ⟨1, [-6, 0, 0, 0]⟩]⟩,
    ⟨8, [⟨0, [0, 0, 0, 0]⟩, ⟨4, [-1, -2, -3, -4]⟩, ⟨3, [5, 10, 15, 0]⟩, ⟨1, [-5, 0, 0, 0]⟩, ⟨0, [0, 0, 0, 0]⟩, ⟨0, [0, 0, 0, 0]⟩, ⟨3, [4, 8, 12, 0]⟩, ⟨1, [-6, 0, 0, 0]⟩]⟩,
    ⟨8, [⟨4, [1, 2, 3, 4]⟩, ⟨0, [0, 0, 0, 0]⟩, ⟨2, [5, 10, 0, 0]⟩, ⟨2, [-5, -10, 0, 0]⟩, ⟨2, [6, 12, 0, 0]⟩, ⟨2, [-4, -8, 0, 0]⟩, ⟨0, [0, 0, 0, 0]⟩, ⟨0, [0, 0, 0, 0]⟩]⟩,
    ⟨8, [⟨3, [1, 2, 3, 0]⟩, ⟨1, [-1, 0, 0, 0]⟩, ⟨2, [5, 10, 0, 0]⟩, ⟨2, [-5, -10, 0, 0]⟩, ⟨2, [6, 12, 0, 0]⟩, ⟨2, [-4, -8, 0, 0]⟩, ⟨1, [4, 0, 0, 0]⟩, ⟨1, [-6, 0, 0, 0]⟩]⟩,
    ⟨8, [⟨2, [1, 2, 0, 0]⟩, ⟨2, [-1, -2, 0, 0]⟩, ⟨2, [5, 10, 0, 0]⟩, ⟨2, [-5, -10, 0, 0]⟩, ⟨2, [6, 12, 0, 0]⟩, ⟨2, [-4, -8, 0, 0]⟩, ⟨2, [4, 8, 0, 0]⟩, ⟨2, [-6, -12, 0, 0]⟩]⟩,
    ⟨8, [⟨1, [1, 0, 0, 0]⟩, ⟨3, [-1, -2, -3, 0]⟩, ⟨2, [5, 10, 0, 0]⟩, ⟨2, [-5, -10, 0, 0]⟩, ⟨1, [6, 0, 0, 0]⟩, ⟨1, [-4, 0, 0, 0]⟩, ⟨2, [4, 8, 0, 0]⟩, ⟨2, [-6, -12, 0, 0]⟩]⟩,
    ⟨8, [⟨0, [0, 0, 0, 0]⟩, ⟨4, [-1, -2, -3, -4]⟩, ⟨2, [5, 10, 0, 0]⟩, ⟨2, [-5, -10, 0, 0]⟩, ⟨0, [0, 0, 0, 0]⟩, ⟨0, [0, 0, 0, 0]⟩, ⟨2, [4, 8, 0, 0]⟩, ⟨2, [-6, -12, 0, 0]⟩]⟩,
    ⟨8, [⟨4, [1, 2, 3, 4]⟩, ⟨0, [0, 0, 0, 0]⟩, ⟨1, [5, 0, 0, 0]⟩, ⟨3, [-5, -10, -15, 0]⟩, ⟨1, [6, 0, 0, 0]⟩, ⟨3, [-4, -8, -12, 0]⟩, ⟨0, [0, 0, 0, 0]⟩, ⟨0, [0, 0, 0, 0]⟩]⟩,
    ⟨8, [⟨3, [1, 2, 3, 0]⟩, ⟨1, [-1, 0, 0, 0]⟩, ⟨1, [5, 0, 0, 0]⟩, ⟨3, [-5, -10, -15, 0]⟩, ⟨1, [6, 0, 0, 0]⟩, ⟨3, [-4, -8, -12, 0]⟩, ⟨1, [4, 0, 0, 0]⟩, ⟨1, [-6, 0, 0, 0]⟩]⟩,
    ⟨8, [⟨2, [1, 2, 0, 0]⟩, ⟨2, [-1, -2, 0, 0]⟩, ⟨1, [5, 0, 0, 0]⟩, ⟨3, [-5, -10, -15, 0]⟩, ⟨1, [6, 0, 0, 0]⟩, ⟨2, [-4, -8, 0, 0]⟩, ⟨1, [4, 0, 0, 0]⟩, ⟨2, [-6, -12, 0, 0]⟩]⟩,
    ⟨8, [⟨1, [1, 0, 0, 0]⟩, ⟨3, [-1, -2, -3, 0]⟩, ⟨1, [5, 0, 0, 0]⟩, ⟨3, [-5, -10, -15, 0]⟩, ⟨1, [6, 0, 0, 0]⟩, ⟨1, [-4, 0, 0, 0]⟩, ⟨1, [4, 0, 0, 0]⟩, ⟨3, [-6, -12, -18, 0]⟩]⟩,
    ⟨8, [⟨0, [0, 0, 0, 0]⟩, ⟨4, [-1, -2, -3, -4]⟩, ⟨1, [5, 0, 0, 0]⟩, ⟨3, [-5, -10, -15, 0]⟩, ⟨0, [0, 0, 0, 0]⟩, ⟨0, [0, 0, 0, 0]⟩, ⟨1, [4, 0, 0, 0]⟩, ⟨3, [-6, -12, -18, 0]⟩]⟩,
    ⟨8, [⟨4, [1, 2, 3, 4]⟩, ⟨0, [0, 0, 0, 0]⟩, ⟨0, [0, 0, 0, 0]⟩, ⟨4, [-5, -10, -15, -20]⟩, ⟨0, [0, 0, 0, 0]⟩, ⟨4, [-4, -8, -12, -16]⟩, ⟨0, [0, 0, 0, 0]⟩, ⟨0, [0, 0, 0, 0]⟩]⟩,
    ⟨8, [⟨3, [1, 2, 3, 0]⟩, ⟨1, [-1, 0, 0, 0]⟩, ⟨0, [0, 0, 0, 0]⟩, ⟨4, [-5, -10, -15, -20]⟩, ⟨0, [0, 0, 0, 0]⟩, ⟨3, [-4, -8, -12, 0]⟩, ⟨0, [0, 0, 0, 0]⟩, ⟨1, [-6, 0, 0, 0]⟩]⟩,
    ⟨8, [⟨2, [1, 2, 0, 0]⟩, ⟨2, [-1, -2, 0, 0]⟩, ⟨0, [0, 0, 0, 0]⟩, ⟨4, [-5, -10, -15, -20]⟩, ⟨0, [0, 0, 0, 0]⟩, ⟨2, [-4, -8, 0, 0]⟩, ⟨0, [0, 0, 0, 0]⟩, ⟨2, [-6, -12, 0, 0]⟩]⟩,
    ⟨8, [⟨1, [1, 0, 0, 0]⟩, ⟨3, [-1, -2, -3, 0]⟩, ⟨0, [0, 0, 0, 0]⟩, ⟨4, [-5, -10, -15, -20]⟩, ⟨0, [0, 0, 0, 0]⟩, ⟨1, [-4, 0, 0, 0]⟩, ⟨0, [0, 0, 0, 0]⟩, ⟨3, [-6, -12, -18, 0]⟩]⟩,
    ⟨8, [⟨0, [0, 0, 0, 0]⟩, ⟨4, [-1, -2, -3, -4]⟩, ⟨0, [0, 0, 0, 0]⟩, ⟨4, [-5, -10, -15, -20]⟩, ⟨0, [0, 0, 0, 0]⟩, ⟨0, [0, 0, 0, 0]⟩, ⟨0, [0, 0, 0, 0]⟩, ⟨4, [-6, -12, -18, -24]⟩]⟩
  ]
]

/-- kMoveTable[tile_index][origin_index] (out-of-range never occurs on the 5x5 board). -/
def kMoveTableAt (t o : Nat) : MoveTableEntry :=
  (kMoveTable.getD t []).getD o defaultEntry

namespace Rules

/-- Base move record: the C++ code only assigns sx, sy, dx, dy and
place_tile = false; the remaining fields keep their defaults. -/
def mkBaseMove (sx sy dx dy : Nat) : Move :=
  ⟨sx, sy, dx, dy, false, 0, 0, TileType.none⟩

/-- The inner ray walk of Rules::legal_moves: walk the offsets in order with
the encountered-friend flag; an empty cell ends the direction (emitting a
destination when the friend flag is set or at step 0), an own piece sets the
flag and continues, an opponent ends the direction without a move. Returns
the linear index of the emitted destination. -/
def walkFrom (b : Board) (p : Player) (origin : Nat) :
    List Int → Bool → Bool → Option Nat
  | [], _, _ => Option.none
  | off :: rest, step0, friend =>
    let t : Int := (origin : Int) + off
    let cell := b.getI t
    if cell.occupant = Player.none then
      if friend then Option.some t.toNat
      else if step0 then Option.some t.toNat
      else Option.none
    else if cell.occupant = p then
      walkFrom b p origin rest false true
    else
      Option.none

/-- The offsets a direction actually uses (steps 0..step_count-1). -/
def usedOffsets (d : PrecomputedDirection) : List Int :=
  d.rel_index.take d.step_count

/-- The directions an entry actually uses (indices 0..dir_count-1). -/
def usedDirs (e : MoveTableEntry) : List PrecomputedDirection :=
  e.dirs.take e.dir_count

/-- The base moves emitted for one origin cell (x, y) owned by the mover. -/
def originMoves (b : Board) (p : Player) (x y : Nat) : List Move :=
  (usedDirs (kMoveTableAt (b.atXY x y).tile.code (y * 5 + x))).filterMap
    (fun d =>
      (walkFrom b p (y * 5 + x) (usedOffsets d) true false).map
        (fun t => mkBaseMove x y (t % 5) (t / 5)))

/-- All base moves of the side to move (the first phase of Rules::legal_moves),
scanning cells with y outer and x inner as the C++ loops do. -/
def baseMoves (s : GameState) : List Move :=
  (List.range 5).flatMap (fun y =>
    (List.range 5).flatMap (fun x =>
      if (s.board.atXY x y).occupant = s.to_move then
        originMoves s.board s.to_move x y
      else []))

/-- Tile-placement variants of a base move for one tile kind: one variant per
cell that is empty and tile-free in the current (pre-move) board, scanned
with y outer and x inner. -/
def placements (b : Board) (base : Move) (tile : TileType) : List Move :=
  (List.range 5).flatMap (fun y =>
    (List.range 5).flatMap (fun x =>
      if (b.atXY x y).occupant = Player.none ∧ (b.atXY x y).tile = TileType.none then
        [{ base with place_tile := true, tx := x, ty := y, tile := tile }]
      else []))

/-- Rules::legal_moves: every base move, then its black-placement variants when
the mover still has black tiles, then its gray-placement variants when the
mover still has gray tiles. -/
def legal_moves (s : GameState) : List Move :=
  (baseMoves s).flatMap (fun base =>
    [base]
      ++ (if (s.inventory s.to_move).black > 0 then placements s.board base TileType.black else [])
      ++ (if (s.inventory s.to_move).gray > 0 then placements s.board base TileType.gray else []))

/-- Rules::is_win: any piece of p on p's goal rank (y=4 for Black, y=0 for White). -/
def is_win (s : GameState) (p : Player) : Bool :=
  let target_row : Nat := if p = Player.black then 4 else 0
  decide (∃ x : Fin 5, (s.board.atXY x target_row).occupant = p)

/-- Rules::is_loss: no legal moves. -/
def is_loss (s : GameState) (_p : Player) : Bool :=
  (legal_moves s).isEmpty

end Rules

/-! Symmetry. The implementation file symmetry.hpp/.cpp is not among the
provided sources (only its tests and callers are), so the two operations are
modelled from the spec. -/

inductive Symmetry where
  | identity
  | flipH
  deriving DecidableEq

/-- The horizontally mirrored linear index: (x, y) goes to (4 - x, y). -/
def flipIdx (i : Fin 25) : Fin 25 :=
  ⟨(i.val / 5) * 5 + (4 - i.val % 5), by omega⟩

/-- Modelled from the spec: SymmetryOps::transform_board; the horizontal flip
sends (x, y) to (W-1-x, y), identity does nothing. -/
def transform_board (b : Board) (sym : Symmetry) : Board :=
  match sym with
  | Symmetry.identity => b
  | Symmetry.flipH => fun i => b (flipIdx i)

/-- NTuple::encode_cell: occupant * 3 + tile, a digit 0..8. -/
def NTuple.encode_cell (c : Cell) : Nat :=
  c.occupant.code * 3 + c.tile.code

/-- A board linearised as the sequence of its 25 cell codes. -/
def boardCode (b : Board) : List Nat :=
  (List.range 25).map (fun i => NTuple.encode_cell (b.get i))

/-- Strict lexicographic comparison of code sequences
(std::lexicographical_compare semantics). -/
def lexLt : List Nat → List Nat → Bool
  | _, [] => false
  | [], _ :: _ => true
  | a :: as, c :: cs => if a < c then true else if c < a then false else lexLt as cs

/-- Modelled from the spec: SymmetryOps::get_canonical_symmetry picks the
symmetry whose transformed board is lexicographically smaller under the
linearised cell codes; ties choose identity. -/
def get_canonical_symmetry (b : Board) : Symmetry :=
  if lexLt (boardCode (transform_board b Symmetry.flipH)) (boardCode b) then
    Symmetry.flipH
  else
    Symmetry.identity

/-- The canonical representative of a board under {identity, horizontal flip}. -/
def canonicalBoard (b : Board) : Board :=
  transform_board b (get_canonical_symmetry b)

/-- The canonical state built inside evaluate/td_update: the transformed board
with the same inventories and side to move. -/
def canonicalState (s : GameState) : GameState :=
  { s with board := canonicalBoard s.board }

/-! The N-tuple evaluator, from engine/src/ntuple.cpp. -/

/-- NTuple::encode_tile_inventory: black + gray * 4 (range 0..7). -/
def NTuple.encode_tile_inventory (black_tiles gray_tiles : Nat) : Nat :=
  black_tiles + gray_tiles * 4

structure NTuple where
  cell_indices : List Nat

/-- NTuple::to_index: base-9 accumulation of the pattern's cell codes (cells
falling outside the board count as 0), then *64 plus the 6-bit tile-inventory
index black_idx*8 + white_idx. -/
def NTuple.to_index (t : NTuple) (s : GameState) (offset_x offset_y : Int) : Nat :=
  let boardIdx := t.cell_indices.foldl
    (fun idx cell_idx =>
      let dx : Nat := cell_idx % 5
      let dy : Nat := cell_idx / 5
      let x : Int := offset_x + (dx : Int)
      let y : Int := offset_y + (dy : Int)
      if x < 0 ∨ 5 ≤ x ∨ y < 0 ∨ 5 ≤ y then idx * 9
      else idx * 9 + NTuple.encode_cell (s.board.atXY x.toNat y.toNat)) 0
  let black_tile_idx := NTuple.encode_tile_inventory s.inv_black.black s.inv_black.gray
  let white_tile_idx := NTuple.encode_tile_inventory s.inv_white.black s.inv_white.gray
  boardIdx * 64 + (black_tile_idx * 8 + white_tile_idx)

/-- The 12 base patterns of NTupleNetwork::init_tuples, in catalogue order:
4 horizontal 5x2 bands, 6 3x3 squares, a T shape and a diagonal. -/
def base_patterns : List (List Nat) := [
  [0, 1, 2, 3, 4, 5, 6, 7, 8],
  [5, 6, 7, 8, 9, 10, 11, 12, 13],
  [10, 11, 12, 13, 14, 15, 16, 17, 18],
  [15, 16, 17, 18, 19, 20, 21, 22, 23],
  [0, 1, 2, 5, 6, 7, 10, 11, 12],
  [1, 2, 3, 6, 7, 8, 11, 12, 13],
  [5, 6, 7, 10, 11, 12, 15, 16, 17],
  [6, 7, 8, 11, 12, 13, 16, 17, 18],
  [10, 11, 12, 15, 16, 17, 20, 21, 22],
  [11, 12, 13, 16, 17, 18, 21, 22, 23],
  [0, 1, 2, 3, 4, 5, 10, 15, 20],
  [0, 1, 2, 3, 4, 7, 12, 17, 22]]

def tuples : List NTuple := base_patterns.map NTuple.mk

/-- The catalogue indexed by pattern number. -/
def tupleAt (i : Fin 12) : NTuple := tuples.getD i ⟨[]⟩

/-- The weight tables, one per pattern, modelled as total maps from the index
space to exact rationals (the spec allows any equality-preserving
representation of the dense float vectors). -/
structure NTupleNetwork where
  weights : Fin 12 → Nat → ℚ

/-- A freshly constructed network: every entry of every table is
0.5 / num_patterns. -/
def NTupleNetwork.fresh : NTupleNetwork :=
  ⟨fun _ _ => (1 / 2 : ℚ) / (tuples.length : ℚ)⟩

/-- The raw (Black-frame) value: the sum of each pattern's weight at that
pattern's index of the given state. -/
def NTupleNetwork.rawSum (net : NTupleNetwork) (s : GameState) : ℚ :=
  ∑ i : Fin 12, net.weights i ((tupleAt i).to_index s 0 0)

/-- NTupleNetwork::evaluate: canonicalise the board (inventories and side to
move unchanged), sum the pattern weights, and negate for White to move. -/
def NTupleNetwork.evaluate (net : NTupleNetwork) (s : GameState) : ℚ :=
  let value := net.rawSum (canonicalState s)
  if s.to_move = Player.white then -value else value

/-- NTupleNetwork::td_update: recompute the raw value on the canonical state,
flip to the mover's perspective, form the error against the target, flip the
error back to the raw frame, and add (lr / num_patterns) * error to each
pattern's weight at its index of the canonical state. -/
def NTupleNetwork.td_update (net : NTupleNetwork) (s : GameState) (target learning_rate : ℚ) :
    NTupleNetwork :=
  let cs := canonicalState s
  let raw_value := net.rawSum cs
  let current_value := if s.to_move = Player.white then -raw_value else raw_value
  let error := target - current_value
  let error2 := if s.to_move = Player.white then -error else error
  let normalized_lr := learning_rate / (tuples.length : ℚ)
  ⟨fun i => Function.update (net.weights i) ((tupleAt i).to_index cs 0 0)
      (net.weights i ((tupleAt i).to_index cs 0 0) + normalized_lr * error2)⟩

/-! Persistence, from NTupleNetwork::load and NTuplePolicy::load. At this
level the weight tables are the finite vectors the file holds. A parsed
weight file is its pattern count and its tables; Option.none stands for a
file that could not be opened. -/

structure WeightsFile where
  num_tuples : Nat
  tables : List (List ℚ)

/-- NTupleNetwork::load: an unopenable file or a pattern-count mismatch
leaves the network untouched; otherwise every table is replaced by the
file's corresponding table. -/
def NTupleNetwork.load (weights : List (List ℚ)) (file : Option WeightsFile) :
    List (List ℚ) :=
  match file with
  | Option.none => weights
  | Option.some f =>
    if f.num_tuples ≠ tuples.length then weights
    else f.tables

/-- NTuplePolicy::load: calls NTupleNetwork::load and returns true unless an
exception escapes; none of the stream operations throws, so the result flag
is always true. -/
def NTuplePolicy.load (weights : List (List ℚ)) (file : Option WeightsFile) :
    List (List ℚ) × Bool :=
  (NTupleNetwork.load weights file, true)

/-! The initial position. GameState::reset is not among the provided sources;
modelled from the spec and test_rules.cpp: row y=0 holds Black pieces, row
y=4 holds White pieces, no tiles anywhere, Black to move, inventories (3,1). -/

def initialBoard : Board := fun i =>
  if i.val < 5 then ⟨Player.black, TileType.none⟩
  else if 20 ≤ i.val then ⟨Player.white, TileType.none⟩
  else emptyCell

def GameState.reset : GameState :=
  ⟨initialBoard, Player.black, ⟨3, 1⟩, ⟨3, 1⟩⟩

/-! The parallel self-play trainer, from apps/train_ntuple/train_selfplay.cpp. -/

/-- The worker thread's choice of starting player: game_no = game_num + 1
(1-based); odd game numbers start with White, even with Black. -/
def startPlayerForGame (game_num : Nat) : Player :=
  let game_no := game_num + 1
  if game_no % 2 = 1 then Player.white else Player.black

/-- play_selfplay_game_shared resets the state and overwrites to_move with
the requested starting player before the first move. -/
def trainingGameInitialState (game_num : Nat) : GameState :=
  { GameState.reset with to_move := startPlayerForGame game_num }

/-! The 29-element board array codec, from apps/web_server/game_session.cpp. -/

/-- The Player a validated occupant code 0..2 stands for. -/
def playerOfCode (n : Nat) : Player :=
  if n = 0 then Player.none else if n = 1 then Player.black else Player.white

/-- The TileType a validated tile code 0..2 stands for. -/
def tileOfCode (n : Nat) : TileType :=
  if n = 0 then TileType.none else if n = 1 then TileType.black else TileType.gray

/-- GameSession::encode_cell: occupant * 3 + tile as a wire integer. -/
def GameSession.encode_cell (c : Cell) : Int :=
  (c.occupant.code * 3 + c.tile.code : Nat)

/-- GameSession::decode_cell: reject values outside 0..8, otherwise split
into occupant = value / 3 and tile = value % 3. -/
def GameSession.decode_cell (v : Int) : Option Cell :=
  if v < 0 ∨ 8 < v then Option.none
  else Option.some ⟨playerOfCode (v.toNat / 3), tileOfCode (v.toNat % 3)⟩

/-- GameSession::board_to_array: the 25 cell codes in row-major order (y
outer, x inner), then the four inventory counters. -/
def board_to_array (s : GameState) : List Int :=
  ((List.range 5).flatMap (fun y =>
      (List.range 5).map (fun x => GameSession.encode_cell (s.board.atXY x y))))
    ++ [(s.inv_black.black : Int), (s.inv_black.gray : Int),
        (s.inv_white.black : Int), (s.inv_white.gray : Int)]

/-- The up-front validation of the 25 cell values in array_to_board. -/
def cellsOk (a : List Int) : Bool :=
  (List.range 25).all (fun i => decide (0 ≤ a.getD i 0) && decide (a.getD i 0 ≤ 8))

/-- The up-front validation of the four inventory values in array_to_board. -/
def invOk (a : List Int) : Bool :=
  decide (0 ≤ a.getD 25 0 ∧ a.getD 25 0 ≤ 3 ∧ 0 ≤ a.getD 26 0 ∧ a.getD 26 0 ≤ 1 ∧
          0 ≤ a.getD 27 0 ∧ a.getD 27 0 ≤ 3 ∧ 0 ≤ a.getD 28 0 ∧ a.getD 28 0 ≤ 1)

/-- The cell-writing loop of array_to_board: decode and write cells 0..24 in
order, stopping (and reporting failure) at the first decode failure. -/
def applyCells (st : GameState) (a : List Int) : GameState × Bool :=
  (List.range 25).foldl
    (fun acc i =>
      match acc with
      | (s, false) => (s, false)
      | (s, true) =>
        match GameSession.decode_cell (a.getD i 0) with
        | Option.none => (s, false)
        | Option.some c => ({ s with board := s.board.set i c }, true))
    (st, true)

/-- GameSession::array_to_board: reject a wrong length, an out-of-range cell
value or an out-of-range inventory value before touching the state; then
write the cells and the inventories. The Bool is the success flag. -/
def array_to_board (st : GameState) (a : List Int) : GameState × Bool :=
  if a.length ≠ 29 then (st, false)
  else if ¬ cellsOk a then (st, false)
  else if ¬ invOk a then (st, false)
  else
    match applyCells st a with
    | (s, false) => (s, false)
    | (s, true) =>
      ({ s with
          inv_black := ⟨(a.getD 25 0).toNat, (a.getD 26 0).toNat⟩,
          inv_white := ⟨(a.getD 27 0).toNat, (a.getD 28 0).toNat⟩ }, true)

/-! Derived definitions used by the claims: the claim-side (spec-worded)
counterparts and small helpers. -/

/-- The inventory count for a given tile kind. -/
def tileCount (inv : TileInventory) : TileType → Nat
  | TileType.black => inv.black
  | TileType.gray => inv.gray
  | TileType.none => 0

/-- A state with a single Black piece at (2,2), Black to move, full
inventories: the smallest state exhibiting the placement behaviour. -/
def loneBlackState : GameState :=
  ⟨fun i => if i.val = 12 then ⟨Player.black, TileType.none⟩ else emptyCell,
    Player.black, ⟨3, 1⟩, ⟨3, 1⟩⟩

/-- The direction vectors per tile code: None moves orthogonally, Black
diagonally, Gray in all 8 directions. -/
def dirVectors (t : Nat) : List (Int × Int) :=
  if t = 0 then [(1, 0), (-1, 0), (0, 1), (0, -1)]
  else if t = 1 then [(1, 1), (1, -1), (-1, 1), (-1, -1)]
  else [(1, 0), (-1, 0), (0, 1), (0, -1), (1, 1), (1, -1), (-1, 1), (-1, -1)]

/-- Offsets of the cells at steps k, k+1, ... (at most fuel of them) along one
direction from (x0, y0), stopping at the first step that leaves the 5x5
board. -/
def specRayAux (x0 y0 dxv dyv : Int) : Nat → Nat → List Int
  | _, 0 => []
  | k, fuel + 1 =>
    let x := x0 + (k : Int) * dxv
    let y := y0 + (k : Int) * dyv
    if 0 ≤ x ∧ x < 5 ∧ 0 ≤ y ∧ y < 5 then
      ((k : Int) * (dyv * 5 + dxv)) :: specRayAux x0 y0 dxv dyv (k + 1) fuel
    else []

/-- The linear-index offsets of the ray from an origin along one direction:
steps 1, 2, 3, 4 until the board edge. -/
def specRay (o : Nat) (v : Int × Int) : List Int :=
  specRayAux ((o % 5 : Nat) : Int) ((o / 5 : Nat) : Int) v.1 v.2 1 4

/-- The index formula as the spec states it: base-9 accumulation of the 9
cell codes, then final_idx = idx*64 + T with
T = 8*(black_count + 4*gray_count of Black) + (black_count + 4*gray_count of White). -/
def specFinalIdx (cells : List Nat) (s : GameState) : Nat :=
  let idx := cells.foldl (fun acc c => acc * 9 + NTuple.encode_cell (s.board.get c)) 0
  let T := 8 * (s.inv_black.black + 4 * s.inv_black.gray) +
    (s.inv_white.black + 4 * s.inv_white.gray)
  idx * 64 + T

/-- The cell a validated wire value 0..8 decodes to. -/
def decodedCell (v : Int) : Cell :=
  ⟨playerOfCode (v.toNat / 3), tileOfCode (v.toNat % 3)⟩

/-- Validity of a 29-element array, as the claim states it. -/
def valid29 (a : List Int) : Prop :=
  a.length = 29 ∧ (∀ i < 25, 0 ≤ a.getD i 0 ∧ a.getD i 0 ≤ 8) ∧
    (0 ≤ a.getD 25 0 ∧ a.getD 25 0 ≤ 3 ∧ 0 ≤ a.getD 26 0 ∧ a.getD 26 0 ≤ 1 ∧
     0 ≤ a.getD 27 0 ∧ a.getD 27 0 ≤ 3 ∧ 0 ≤ a.getD 28 0 ∧ a.getD 28 0 ≤ 1)

/-! Facts about the move table, checked by evaluation over all 75 entries. -/

/-- Every used offset of every entry stays on the board: 0 <= origin + offset < 25. -/
lemma table_in_range : ∀ tc : Fin 3, ∀ o : Fin 25,
    ∀ d ∈ Rules.usedDirs (kMoveTableAt tc o), ∀ off ∈ Rules.usedOffsets d,
      0 ≤ (o.val : Int) + off ∧ (o.val : Int) + off < 25 := by decide

/-- Distinct directions of one entry use pairwise distinct offsets. -/
lemma table_pairwise_disjoint : ∀ tc : Fin 3, ∀ o : Fin 25,
    List.Pairwise (fun d1 d2 => ∀ o1 ∈ Rules.usedOffsets d1, ∀ o2 ∈ Rules.usedOffsets d2, o1 ≠ o2)
      (Rules.usedDirs (kMoveTableAt tc o)) := by decide

lemma tile_code_lt (t : TileType) : t.code < 3 := by
  cases t <;> simp [TileType.code]

/-! The ray walk characterised: under the two flag configurations the walk can
reach (step 0 with no friend passed, or a later step with the friend flag set),
it emits exactly the first cell along the ray that is not occupied by an own
piece, provided that cell is empty; an opponent there ends the direction with
no move. -/

lemma walkFrom_some_iff (b : Board) (p : Player) (o : Nat) (hp : p ≠ Player.none) :
    ∀ (offs : List Int) (f : Bool) (t : Nat),
      Rules.walkFrom b p o offs (!f) f = Option.some t ↔
        ∃ k, k < offs.length ∧
          (∀ j, j < k → (b.getI ((o : Int) + offs.getD j 0)).occupant = p) ∧
          (b.getI ((o : Int) + offs.getD k 0)).occupant = Player.none ∧
          t = ((o : Int) + offs.getD k 0).toNat := by
  intro offs
  induction offs with
  | nil =>
    intro f t
    simp [Rules.walkFrom]
  | cons off rest ih =>
    intro f t
    by_cases hc : (b.getI ((o : Int) + off)).occupant = Player.none
    · have hL : Rules.walkFrom b p o (off :: rest) (!f) f =
          Option.some ((o : Int) + off).toNat := by
        cases f <;> simp [Rules.walkFrom, hc]
      rw [hL]
      constructor
      · intro ht
        refine ⟨0, by simp, ?_, ?_, ?_⟩
        · intro j hj; omega
        · simpa using hc
        · simpa using (Option.some.inj ht).symm
      · rintro ⟨k, hk, hall, hnone, ht⟩
        rcases Nat.eq_zero_or_pos k with hk0 | hkpos
        · subst hk0
          simp only [List.getD_cons_zero] at ht
          simp [ht]
        · have h0 := hall 0 hkpos
          simp only [List.getD_cons_zero] at h0
          exact absurd (h0.symm.trans hc) hp
    · by_cases hcp : (b.getI ((o : Int) + off)).occupant = p
      · have hL : Rules.walkFrom b p o (off :: rest) (!f) f =
            Rules.walkFrom b p o rest (!true) true := by
          cases f <;> simp [Rules.walkFrom, hc, hcp] <;>
            exact fun h => absurd h hp
        rw [hL, ih true t]
        constructor
        · rintro ⟨k, hk, hall, hnone, ht⟩
          refine ⟨k + 1, by simpa using Nat.succ_lt_succ hk, ?_, ?_, ?_⟩
          · intro j hj
            cases j with
            | zero => simpa using hcp
            | succ j' => simpa using hall j' (by omega)
          · simpa using hnone
          · simpa using ht
        · rintro ⟨k, hk, hall, hnone, ht⟩
          cases k with
          | zero =>
            simp only [List.getD_cons_zero] at hnone
            exact absurd hnone hc
          | succ k' =>
            refine ⟨k', by simpa using Nat.lt_of_succ_lt_succ hk, ?_, ?_, ?_⟩
            · intro j hj
              have := hall (j + 1) (by omega)
              simpa using this
            · simpa using hnone
            · simpa using ht
      · have hL : Rules.walkFrom b p o (off :: rest) (!f) f = Option.none := by
          cases f <;> simp [Rules.walkFrom, hc, hcp]
        rw [hL]
        constructor
        · intro ht; exact absurd ht (by simp)
        · rintro ⟨k, hk, hall, hnone, ht⟩
          rcases Nat.eq_zero_or_pos k with hk0 | hkpos
          · subst hk0
            simp only [List.getD_cons_zero] at hnone
            exact absurd hnone hc
          · have h0 := hall 0 hkpos
            simp only [List.getD_cons_zero] at h0
            exact absurd h0 hcp

/-! Membership characterisations of the move generator. -/

lemma mem_originMoves_iff (b : Board) (p : Player) (x y : Nat) (m : Move) :
    m ∈ Rules.originMoves b p x y ↔
      ∃ d ∈ Rules.usedDirs (kMoveTableAt (b.atXY x y).tile.code (y * 5 + x)), ∃ t,
        Rules.walkFrom b p (y * 5 + x) (Rules.usedOffsets d) true false = Option.some t ∧
        m = Rules.mkBaseMove x y (t % 5) (t / 5) := by
  simp only [Rules.originMoves, List.mem_filterMap, Option.map_eq_some']
  constructor
  · rintro ⟨d, hd, t, hw, hm⟩
    exact ⟨d, hd, t, hw, hm.symm⟩
  · rintro ⟨d, hd, t, hw, hm⟩
    exact ⟨d, hd, t, hw, hm.symm⟩

lemma mem_baseMoves_iff (s : GameState) (m : Move) :
    m ∈ Rules.baseMoves s ↔
      ∃ y, y < 5 ∧ ∃ x, x < 5 ∧ (s.board.atXY x y).occupant = s.to_move ∧
        m ∈ Rules.originMoves s.board s.to_move x y := by
  simp only [Rules.baseMoves, List.mem_flatMap, List.mem_range]
  constructor
  · rintro ⟨y, hy, x, hx, hm⟩
    by_cases hown : (s.board.atXY x y).occupant = s.to_move
    · rw [if_pos hown] at hm
      exact ⟨y, hy, x, hx, hown, hm⟩
    · rw [if_neg hown] at hm
      exact absurd hm (List.not_mem_nil _)
  · rintro ⟨y, hy, x, hx, hown, hm⟩
    refine ⟨y, hy, x, hx, ?_⟩
    rw [if_pos hown]
    exact hm

/-- Every move of originMoves records its origin and is a bare base move. -/
lemma originMoves_fields (b : Board) (p : Player) (x y : Nat) (m : Move)
    (h : m ∈ Rules.originMoves b p x y) :
    m.sx = x ∧ m.sy = y ∧ m.place_tile = false ∧ m.tx = 0 ∧ m.ty = 0 ∧
      m.tile = TileType.none := by
  rcases (mem_originMoves_iff b p x y m).1 h with ⟨d, _, t, _, hm⟩
  subst hm
  exact ⟨rfl, rfl, rfl, rfl, rfl, rfl⟩

/-- The emitted destination of an origin's ray walk: it comes from one used
offset of one used direction, it is on the board, and its cell is empty. -/
lemma originMoves_dest (b : Board) (p : Player) (x y : Nat) (m : Move)
    (hp : p ≠ Player.none) (hx : x < 5) (hy : y < 5)
    (h : m ∈ Rules.originMoves b p x y) :
    ∃ t < 25, m.dx = t % 5 ∧ m.dy = t / 5 ∧ (b.get t).occupant = Player.none := by
  rcases (mem_originMoves_iff b p x y m).1 h with ⟨d, hd, t, hw, hm⟩
  have hwalk := (walkFrom_some_iff b p (y * 5 + x) hp (Rules.usedOffsets d) false t).1
  rw [Bool.not_false] at hwalk
  rcases hwalk hw with ⟨k, hk, _, hnone, ht⟩
  have hoff : (Rules.usedOffsets d).getD k 0 ∈ Rules.usedOffsets d := by
    rw [List.getD_eq_getElem _ _ hk]
    exact List.getElem_mem hk
  have horig : y * 5 + x < 25 := by omega
  have hrange := table_in_range ⟨(b.atXY x y).tile.code, tile_code_lt _⟩ ⟨y * 5 + x, horig⟩
    d hd _ hoff
  set ti : Int := ((y * 5 + x : Nat) : Int) + (Rules.usedOffsets d).getD k 0 with hti
  have htn : (ti.toNat : Int) = ti := Int.toNat_of_nonneg hrange.1
  have ht25 : ti.toNat < 25 := by omega
  refine ⟨ti.toNat, ht25, ?_, ?_, ?_⟩
  · simp [hm, Rules.mkBaseMove, ht]
  · simp [hm, Rules.mkBaseMove, ht]
  · have hgi : b.getI ti = b.get ti.toNat := by
      unfold Board.getI
      rw [if_pos hrange.1]
    rw [← hgi]
    exact hnone

/-- Distinct directions of one entry use pairwise distinct offsets, all of
which keep origin + offset on the board. -/
lemma table_pairwise_strong : ∀ tc : Fin 3, ∀ o : Fin 25,
    List.Pairwise
      (fun d1 d2 => ∀ o1 ∈ Rules.usedOffsets d1, ∀ o2 ∈ Rules.usedOffsets d2,
        o1 ≠ o2 ∧ 0 ≤ (o.val : Int) + o1 ∧ (o.val : Int) + o1 < 25 ∧
          0 ≤ (o.val : Int) + o2 ∧ (o.val : Int) + o2 < 25)
      (Rules.usedDirs (kMoveTableAt tc o)) := by decide

/-- Distinct directions emit distinct moves, so an origin's move list has no
duplicates. -/
lemma nodup_originMoves (b : Board) (p : Player) (x y : Nat)
    (hp : p ≠ Player.none) (hx : x < 5) (hy : y < 5) :
    (Rules.originMoves b p x y).Nodup := by
  have horig : y * 5 + x < 25 := by omega
  have hpw := table_pairwise_strong ⟨(b.atXY x y).tile.code, tile_code_lt _⟩ ⟨y * 5 + x, horig⟩
  refine List.Pairwise.filterMap _ ?_ hpw
  intro d1 d2 hdis m1 hm1 m2 hm2
  rw [Option.mem_def, Option.map_eq_some'] at hm1 hm2
  rcases hm1 with ⟨t1, hw1, hmk1⟩
  rcases hm2 with ⟨t2, hw2, hmk2⟩
  have hiff1 := (walkFrom_some_iff b p (y * 5 + x) hp (Rules.usedOffsets d1) false t1).1
  have hiff2 := (walkFrom_some_iff b p (y * 5 + x) hp (Rules.usedOffsets d2) false t2).1
  rw [Bool.not_false] at hiff1 hiff2
  rcases hiff1 hw1 with ⟨k1, hk1, _, _, ht1⟩
  rcases hiff2 hw2 with ⟨k2, hk2, _, _, ht2⟩
  have hoff1 : (Rules.usedOffsets d1).getD k1 0 ∈ Rules.usedOffsets d1 := by
    rw [List.getD_eq_getElem _ _ hk1]; exact List.getElem_mem hk1
  have hoff2 : (Rules.usedOffsets d2).getD k2 0 ∈ Rules.usedOffsets d2 := by
    rw [List.getD_eq_getElem _ _ hk2]; exact List.getElem_mem hk2
  rcases hdis _ hoff1 _ hoff2 with ⟨hne, hlo1, hhi1, hlo2, hhi2⟩
  have htne : t1 ≠ t2 := by
    intro hteq
    apply hne
    have e1 : (t1 : Int) = ((y * 5 + x : Nat) : Int) + (Rules.usedOffsets d1).getD k1 0 := by
      rw [ht1]; exact Int.toNat_of_nonneg hlo1
    have e2 : (t2 : Int) = ((y * 5 + x : Nat) : Int) + (Rules.usedOffsets d2).getD k2 0 := by
      rw [ht2]; exact Int.toNat_of_nonneg hlo2
    have hti12 : ((t1 : Int)) = (t2 : Int) := by exact_mod_cast hteq
    omega
  subst hmk1 hmk2
  intro hcontra
  apply htne
  have hdx : t1 % 5 = t2 % 5 := congrArg Move.dx hcontra
  have hdy : t1 / 5 = t2 / 5 := congrArg Move.dy hcontra
  omega

/-! Counting lemmas: a move appears in a flatMap exactly as often as in the
block of its unique source. -/

lemma count_flatMap_eq_single {α β : Type} [DecidableEq α] [DecidableEq β]
    (l : List α) (g : α → List β) (v : β) (a : α)
    (hcnt : l.count a = 1) (hother : ∀ x ∈ l, x ≠ a → v ∉ g x) :
    (l.flatMap g).count v = (g a).count v := by
  induction l with
  | nil => simp at hcnt
  | cons x rest ih =>
    rw [List.flatMap_cons, List.count_append]
    by_cases hxa : x = a
    · subst hxa
      have hrest : rest.count x = 0 := by
        rw [List.count_cons_self] at hcnt
        omega
      have hzero : (rest.flatMap g).count v = 0 := by
        rw [List.count_eq_zero]
        intro hmem
        rcases List.mem_flatMap.1 hmem with ⟨x', hx', hvx'⟩
        have hx'a : x' ≠ x := by
          intro he
          rw [he] at hx'
          exact absurd hx' (List.count_eq_zero.1 hrest)
        exact hother x' (List.mem_cons_of_mem _ hx') hx'a hvx'
      rw [hzero, Nat.add_zero]
    · have hcnt' : rest.count a = 1 := by
        rw [List.count_cons_of_ne (Ne.symm hxa)] at hcnt
        exact hcnt
      have h0 : (g x).count v = 0 :=
        List.count_eq_zero.2 (fun hm => hother x (List.mem_cons_self x rest) hxa hm)
      rw [h0, zero_add]
      exact ih hcnt' (fun x' h' => hother x' (List.mem_cons_of_mem _ h'))

/-- A base move occurs exactly once in the base-move list. -/
lemma count_baseMoves_eq_one (s : GameState) (base : Move)
    (hp : s.to_move ≠ Player.none) (h : base ∈ Rules.baseMoves s) :
    (Rules.baseMoves s).count base = 1 := by
  rcases (mem_baseMoves_iff s base).1 h with ⟨y, hy, x, hx, hown, hmo⟩
  rcases originMoves_fields _ _ _ _ _ hmo with ⟨hsx, hsy, _, _, _, _⟩
  have houter : ∀ y' ∈ List.range 5, y' ≠ y →
      base ∉ (List.range 5).flatMap (fun x' =>
        if (s.board.atXY x' y').occupant = s.to_move then
          Rules.originMoves s.board s.to_move x' y' else []) := by
    intro y' _ hy' hmem
    rcases List.mem_flatMap.1 hmem with ⟨x', hx', hmem'⟩
    by_cases hown' : (s.board.atXY x' y').occupant = s.to_move
    · rw [if_pos hown'] at hmem'
      rcases originMoves_fields _ _ _ _ _ hmem' with ⟨_, hsy', _, _, _, _⟩
      exact hy' (by rw [← hsy', hsy])
    · rw [if_neg hown'] at hmem'
      exact absurd hmem' (List.not_mem_nil _)
  have hinner : ∀ x' ∈ List.range 5, x' ≠ x →
      base ∉ (if (s.board.atXY x' y).occupant = s.to_move then
        Rules.originMoves s.board s.to_move x' y else []) := by
    intro x' _ hx' hmem
    by_cases hown' : (s.board.atXY x' y).occupant = s.to_move
    · rw [if_pos hown'] at hmem
      rcases originMoves_fields _ _ _ _ _ hmem with ⟨hsx', _, _, _, _, _⟩
      exact hx' (by rw [← hsx', hsx])
    · rw [if_neg hown'] at hmem
      exact absurd hmem (List.not_mem_nil _)
  unfold Rules.baseMoves
  rw [count_flatMap_eq_single _ _ _ y
      (List.count_eq_one_of_mem (List.nodup_range 5) (List.mem_range.2 hy)) houter]
  rw [count_flatMap_eq_single _ _ _ x
      (List.count_eq_one_of_mem (List.nodup_range 5) (List.mem_range.2 hx)) hinner]
  rw [if_pos hown]
  exact List.count_eq_one_of_mem (nodup_originMoves _ _ _ _ hp hx hy) hmo

lemma mem_placements_iff (b : Board) (base : Move) (T : TileType) (m : Move) :
    m ∈ Rules.placements b base T ↔
      ∃ y, y < 5 ∧ ∃ x, x < 5 ∧
        ((b.atXY x y).occupant = Player.none ∧ (b.atXY x y).tile = TileType.none) ∧
        m = { base with place_tile := true, tx := x, ty := y, tile := T } := by
  simp only [Rules.placements, List.mem_flatMap, List.mem_range]
  constructor
  · rintro ⟨y, hy, x, hx, hm⟩
    by_cases hq : (b.atXY x y).occupant = Player.none ∧ (b.atXY x y).tile = TileType.none
    · rw [if_pos hq] at hm
      rcases List.mem_singleton.1 hm with rfl
      exact ⟨y, hy, x, hx, hq, rfl⟩
    · rw [if_neg hq] at hm
      exact absurd hm (List.not_mem_nil _)
  · rintro ⟨y, hy, x, hx, hq, hm⟩
    refine ⟨y, hy, x, hx, ?_⟩
    rw [if_pos hq, hm]
    exact List.mem_singleton.2 rfl

/-- How often one placement variant occurs among the placements of one base
move for one tile kind: once when the target cell is empty and tile-free in
the pre-move board, never otherwise. -/
lemma count_placements (b : Board) (base : Move) (T : TileType) (tx ty : Nat)
    (htx : tx < 5) (hty : ty < 5) :
    (Rules.placements b base T).count
        { base with place_tile := true, tx := tx, ty := ty, tile := T } =
      if (b.atXY tx ty).occupant = Player.none ∧ (b.atXY tx ty).tile = TileType.none
      then 1 else 0 := by
  have houter : ∀ y' ∈ List.range 5, y' ≠ ty →
      { base with place_tile := true, tx := tx, ty := ty, tile := T } ∉
        (List.range 5).flatMap (fun x' =>
          if (b.atXY x' y').occupant = Player.none ∧ (b.atXY x' y').tile = TileType.none then
            [{ base with place_tile := true, tx := x', ty := y', tile := T }] else []) := by
    intro y' _ hy' hmem
    rcases List.mem_flatMap.1 hmem with ⟨x', hx', hmem'⟩
    by_cases hq : (b.atXY x' y').occupant = Player.none ∧ (b.atXY x' y').tile = TileType.none
    · rw [if_pos hq] at hmem'
      rcases List.mem_singleton.1 hmem' with hm
      exact hy' (show y' = ty from (congrArg Move.ty hm).symm)
    · rw [if_neg hq] at hmem'
      exact absurd hmem' (List.not_mem_nil _)
  have hinner : ∀ x' ∈ List.range 5, x' ≠ tx →
      { base with place_tile := true, tx := tx, ty := ty, tile := T } ∉
        (if (b.atXY x' ty).occupant = Player.none ∧ (b.atXY x' ty).tile = TileType.none then
          [{ base with place_tile := true, tx := x', ty := ty, tile := T }] else []) := by
    intro x' _ hx' hmem
    by_cases hq : (b.atXY x' ty).occupant = Player.none ∧ (b.atXY x' ty).tile = TileType.none
    · rw [if_pos hq] at hmem
      rcases List.mem_singleton.1 hmem with hm
      exact hx' (show x' = tx from (congrArg Move.tx hm).symm)
    · rw [if_neg hq] at hmem
      exact absurd hmem (List.not_mem_nil _)
  unfold Rules.placements
  rw [count_flatMap_eq_single _ _ _ ty
      (List.count_eq_one_of_mem (List.nodup_range 5) (List.mem_range.2 hty)) houter]
  rw [count_flatMap_eq_single _ _ _ tx
      (List.count_eq_one_of_mem (List.nodup_range 5) (List.mem_range.2 htx)) hinner]
  by_cases hq : (b.atXY tx ty).occupant = Player.none ∧ (b.atXY tx ty).tile = TileType.none
  · rw [if_pos hq, if_pos hq]
    simp
  · rw [if_neg hq, if_neg hq]
    simp

/-- Two moves are equal when all eight fields agree. -/
lemma move_eq_of_fields (m1 m2 : Move)
    (h1 : m1.sx = m2.sx) (h2 : m1.sy = m2.sy) (h3 : m1.dx = m2.dx) (h4 : m1.dy = m2.dy)
    (h5 : m1.place_tile = m2.place_tile) (h6 : m1.tx = m2.tx) (h7 : m1.ty = m2.ty)
    (h8 : m1.tile = m2.tile) : m1 = m2 := by
  cases m1
  cases m2
  simp_all

/-- Field facts for members of the base-move list. -/
lemma baseMoves_fields (s : GameState) (m : Move) (h : m ∈ Rules.baseMoves s) :
    m.place_tile = false ∧ m.tx = 0 ∧ m.ty = 0 ∧ m.tile = TileType.none ∧
      m.sx < 5 ∧ m.sy < 5 ∧ (s.board.atXY m.sx m.sy).occupant = s.to_move := by
  rcases (mem_baseMoves_iff s m).1 h with ⟨y, hy, x, hx, hown, hmo⟩
  rcases originMoves_fields _ _ _ _ _ hmo with ⟨hsx, hsy, hpl, htx, hty, htl⟩
  refine ⟨hpl, htx, hty, htl, ?_, ?_, ?_⟩
  · rw [hsx]; exact hx
  · rw [hsy]; exact hy
  · rw [hsx, hsy]; exact hown

/-- The number of occurrences of one placement variant in the full legal-move
list: exactly one when the target cell is empty and tile-free in the pre-move
board, zero otherwise. -/
lemma count_legal_moves_placement (s : GameState) (base : Move)
    (hp : s.to_move ≠ Player.none) (hb : base ∈ Rules.baseMoves s) (T : TileType)
    (hT : T = TileType.black ∨ T = TileType.gray)
    (hinv : 0 < tileCount (s.inventory s.to_move) T) (tx ty : Nat)
    (htx : tx < 5) (hty : ty < 5) :
    (Rules.legal_moves s).count
        { base with place_tile := true, tx := tx, ty := ty, tile := T } =
      if (s.board.atXY tx ty).occupant = Player.none ∧
         (s.board.atXY tx ty).tile = TileType.none
      then 1 else 0 := by
  rcases baseMoves_fields s base hb with ⟨hbp, hbtx, hbty, hbtile, _, _, _⟩
  have hother : ∀ base' ∈ Rules.baseMoves s, base' ≠ base →
      { base with place_tile := true, tx := tx, ty := ty, tile := T } ∉
        ([base'] ++
          (if (s.inventory s.to_move).black > 0 then
            Rules.placements s.board base' TileType.black else []) ++
          (if (s.inventory s.to_move).gray > 0 then
            Rules.placements s.board base' TileType.gray else [])) := by
    intro base' hb' hne hmem
    rcases baseMoves_fields s base' hb' with ⟨hbp', hbtx', hbty', hbtile', _, _, _⟩
    have hfrom : ∀ T' : TileType,
        { base with place_tile := true, tx := tx, ty := ty, tile := T } ∉
          Rules.placements s.board base' T' := by
      intro T' hmem'
      rcases (mem_placements_iff _ _ _ _).1 hmem' with ⟨y', _, x', _, _, hm⟩
      apply hne
      have e1 := congrArg Move.sx hm
      have e2 := congrArg Move.sy hm
      have e3 := congrArg Move.dx hm
      have e4 := congrArg Move.dy hm
      apply move_eq_of_fields
      · exact e1.symm
      · exact e2.symm
      · exact e3.symm
      · exact e4.symm
      · rw [hbp', hbp]
      · rw [hbtx', hbtx]
      · rw [hbty', hbty]
      · rw [hbtile', hbtile]
    rcases List.mem_append.1 hmem with hmem1 | hmem2
    · rcases List.mem_append.1 hmem1 with hmem0 | hmemB
      · have heq := List.mem_singleton.1 hmem0
        have : base'.place_tile = true := by
          rw [← heq]
        rw [hbp'] at this
        exact absurd this (by simp)
      · by_cases hbk : (s.inventory s.to_move).black > 0
        · rw [if_pos hbk] at hmemB
          exact hfrom TileType.black hmemB
        · rw [if_neg hbk] at hmemB
          exact absurd hmemB (List.not_mem_nil _)
    · by_cases hgr : (s.inventory s.to_move).gray > 0
      · rw [if_pos hgr] at hmem2
        exact hfrom TileType.gray hmem2
      · rw [if_neg hgr] at hmem2
        exact absurd hmem2 (List.not_mem_nil _)
  unfold Rules.legal_moves
  rw [count_flatMap_eq_single _ _ _ base (count_baseMoves_eq_one s base hp hb) hother]
  rw [List.count_append, List.count_append]
  have h0 : List.count { base with place_tile := true, tx := tx, ty := ty, tile := T }
      [base] = 0 := by
    rw [List.count_eq_zero]
    intro hmem
    have heq := List.mem_singleton.1 hmem
    have : base.place_tile = true := by rw [← heq]
    rw [hbp] at this
    exact absurd this (by simp)
  have hwrong : ∀ T' : TileType, T' ≠ T →
      List.count { base with place_tile := true, tx := tx, ty := ty, tile := T }
        (Rules.placements s.board base T') = 0 := by
    intro T' hT' 
    rw [List.count_eq_zero]
    intro hmem
    rcases (mem_placements_iff _ _ _ _).1 hmem with ⟨y', _, x', _, _, hm⟩
    exact hT' (show T' = T from (congrArg Move.tile hm).symm)
  rcases hT with hTb | hTg
  · subst hTb
    have hbk : (s.inventory s.to_move).black > 0 := hinv
    rw [if_pos hbk]
    rw [count_placements _ _ _ _ _ htx hty]
    by_cases hgr : (s.inventory s.to_move).gray > 0
    · rw [if_pos hgr]
      rw [hwrong TileType.gray (by intro hgb; exact TileType.noConfusion hgb)]
      omega
    · rw [if_neg hgr]
      simp only [List.count_nil]
      omega
  · subst hTg
    have hgr : (s.inventory s.to_move).gray > 0 := hinv
    rw [if_pos hgr]
    rw [count_placements _ _ _ _ _ htx hty]
    by_cases hbk : (s.inventory s.to_move).black > 0
    · rw [if_pos hbk]
      rw [hwrong TileType.black (by intro hgb; exact TileType.noConfusion hgb)]
      omega
    · rw [if_neg hbk]
      simp only [List.count_nil]
      omega

/-- Destination facts for members of the base-move list. -/
lemma baseMoves_dest (s : GameState) (m : Move)
    (hp : s.to_move ≠ Player.none) (h : m ∈ Rules.baseMoves s) :
    m.dx < 5 ∧ m.dy < 5 ∧ (s.board.atXY m.dx m.dy).occupant = Player.none := by
  rcases (mem_baseMoves_iff s m).1 h with ⟨y, hy, x, hx, hown, hmo⟩
  rcases originMoves_dest s.board s.to_move x y m hp hx hy hmo with ⟨t, ht25, hdx, hdy, hocc⟩
  have hxy : s.board.atXY m.dx m.dy = s.board.get t := by
    rw [hdx, hdy]
    unfold Board.atXY
    have : t / 5 * 5 + t % 5 = t := by omega
    rw [this]
  refine ⟨?_, ?_, ?_⟩
  · rw [hdx]; omega
  · rw [hdy]; omega
  · rw [hxy]; exact hocc

/-! Claim theorems for the rules engine. -/

/-- C1 counterexample. In the state with a lone Black piece at (2,2) and full
inventories, (2,2)->(2,3) is a base move and Black tiles are available, yet
the placement variant at the vacated origin (2,2) - which the claim says is
included - is absent from legal_moves, while the variant at the motion target
(2,3) - which the claim says is excluded - is present. -/
theorem C1_counterexample :
    Rules.mkBaseMove 2 2 2 3 ∈ Rules.baseMoves loneBlackState ∧
    0 < tileCount (loneBlackState.inventory loneBlackState.to_move) TileType.black ∧
    { Rules.mkBaseMove 2 2 2 3 with
        place_tile := true, tx := 2, ty := 2, tile := TileType.black } ∉
      Rules.legal_moves loneBlackState ∧
    { Rules.mkBaseMove 2 2 2 3 with
        place_tile := true, tx := 2, ty := 3, tile := TileType.black } ∈
      Rules.legal_moves loneBlackState := by
  decide

/-- C1 amended: for every base move of the side to move and every tile kind
with positive inventory, legal_moves contains exactly one placement variant
of that base move per cell that is empty and tile-free in the PRE-MOVE board
(and none per any other cell); in particular the motion target (dx,dy) is
eligible (it is empty, so the variant exists there exactly when it carries no
tile) and the origin (sx,sy) is never eligible (it is still occupied). -/
theorem C1_placement_expansion (s : GameState) (base : Move) (T : TileType) (tx ty : Nat)
    (hp : s.to_move ≠ Player.none) (hb : base ∈ Rules.baseMoves s)
    (hT : T = TileType.black ∨ T = TileType.gray)
    (hinv : 0 < tileCount (s.inventory s.to_move) T)
    (htx : tx < 5) (hty : ty < 5) :
    (Rules.legal_moves s).count
        { base with place_tile := true, tx := tx, ty := ty, tile := T } =
      (if (s.board.atXY tx ty).occupant = Player.none ∧
          (s.board.atXY tx ty).tile = TileType.none then 1 else 0) ∧
    (s.board.atXY base.dx base.dy).occupant = Player.none ∧
    (Rules.legal_moves s).count
        { base with place_tile := true, tx := base.sx, ty := base.sy, tile := T } = 0 := by
  rcases baseMoves_fields s base hb with ⟨_, _, _, _, hsx5, hsy5, hown⟩
  rcases baseMoves_dest s base hp hb with ⟨_, _, hdest⟩
  refine ⟨count_legal_moves_placement s base hp hb T hT hinv tx ty htx hty, hdest, ?_⟩
  rw [count_legal_moves_placement s base hp hb T hT hinv base.sx base.sy hsx5 hsy5]
  rw [if_neg]
  intro hq
  rw [hown] at hq
  exact hp hq.1

/-- C1 witness: in the lone-Black state, the Black-tile variant of the base
move (2,2)->(2,3) occurs exactly once with target (0,0) (empty and tile-free),
and never with target (2,2) (the occupied origin). -/
theorem C1_placement_expansion_witness :
    (Rules.legal_moves loneBlackState).count
        { Rules.mkBaseMove 2 2 2 3 with
            place_tile := true, tx := 0, ty := 0, tile := TileType.black } =
      (if (loneBlackState.board.atXY 0 0).occupant = Player.none ∧
          (loneBlackState.board.atXY 0 0).tile = TileType.none then 1 else 0) ∧
    (loneBlackState.board.atXY (Rules.mkBaseMove 2 2 2 3).dx
        (Rules.mkBaseMove 2 2 2 3).dy).occupant = Player.none ∧
    (Rules.legal_moves loneBlackState).count
        { Rules.mkBaseMove 2 2 2 3 with
            place_tile := true, tx := (Rules.mkBaseMove 2 2 2 3).sx,
            ty := (Rules.mkBaseMove 2 2 2 3).sy, tile := TileType.black } = 0 :=
  C1_placement_expansion loneBlackState (Rules.mkBaseMove 2 2 2 3) TileType.black 0 0
    (by decide) (by decide) (Or.inl rfl) (by decide) (by decide) (by decide)

/-- C2: complete characterisation of the base moves. A move is emitted for an
own piece at (x,y) and a direction of the move table exactly when some step k
of that direction's ray reaches an empty cell with every earlier step covered
by an own piece: at k = 0 nothing has been passed (the adjacent step), and at
k > 0 every earlier cell holds an own piece (the jump landing, with the
encountered-friend flag set). A ray whose first non-own cell holds an
opponent emits nothing, and no other base moves exist. -/
theorem C2_ray_walk (s : GameState) (m : Move) (hp : s.to_move ≠ Player.none) :
    m ∈ Rules.baseMoves s ↔
      ∃ y, y < 5 ∧ ∃ x, x < 5 ∧ (s.board.atXY x y).occupant = s.to_move ∧
        ∃ d ∈ Rules.usedDirs (kMoveTableAt (s.board.atXY x y).tile.code (y * 5 + x)),
          ∃ k, k < (Rules.usedOffsets d).length ∧
            (∀ j, j < k →
              (s.board.getI (((y * 5 + x : Nat) : Int) +
                (Rules.usedOffsets d).getD j 0)).occupant = s.to_move) ∧
            (s.board.getI (((y * 5 + x : Nat) : Int) +
              (Rules.usedOffsets d).getD k 0)).occupant = Player.none ∧
            m = Rules.mkBaseMove x y
              ((((y * 5 + x : Nat) : Int) + (Rules.usedOffsets d).getD k 0).toNat % 5)
              ((((y * 5 + x : Nat) : Int) + (Rules.usedOffsets d).getD k 0).toNat / 5) := by
  rw [mem_baseMoves_iff]
  constructor
  · rintro ⟨y, hy, x, hx, hown, hmo⟩
    rcases (mem_originMoves_iff _ _ _ _ _).1 hmo with ⟨d, hd, t, hw, hm⟩
    have hiff := (walkFrom_some_iff s.board s.to_move (y * 5 + x) hp
      (Rules.usedOffsets d) false t).1
    rw [Bool.not_false] at hiff
    rcases hiff hw with ⟨k, hk, hall, hnone, ht⟩
    exact ⟨y, hy, x, hx, hown, d, hd, k, hk, hall, hnone, by rw [hm, ht]⟩
  · rintro ⟨y, hy, x, hx, hown, d, hd, k, hk, hall, hnone, hm⟩
    refine ⟨y, hy, x, hx, hown, ?_⟩
    rw [mem_originMoves_iff]
    have hiff := (walkFrom_some_iff s.board s.to_move (y * 5 + x) hp
      (Rules.usedOffsets d) false
      ((((y * 5 + x : Nat) : Int) + (Rules.usedOffsets d).getD k 0).toNat)).2
    rw [Bool.not_false] at hiff
    exact ⟨d, hd, (((y * 5 + x : Nat) : Int) + (Rules.usedOffsets d).getD k 0).toNat,
      hiff ⟨k, hk, hall, hnone, rfl⟩, hm⟩

/-- C2 witness: in the lone-Black state the move (2,2)->(2,3) is a base move,
via the characterisation applied at that state. -/
theorem C2_ray_walk_witness :
    Rules.mkBaseMove 2 2 2 3 ∈ Rules.baseMoves loneBlackState :=
  (C2_ray_walk loneBlackState (Rules.mkBaseMove 2 2 2 3) (by decide)).2
    ⟨2, by decide, 2, by decide, by decide, ⟨2, [5, 10, 0, 0]⟩, by decide, 0, by decide,
      (by intro j hj; omega), by decide, by decide⟩

/-- C10: sanity invariants of every legal move: the source holds the mover's
piece, the destination is empty in the pre-move board, and a placement
targets a cell that is empty and tile-free in the pre-move board with a
positive inventory count for the placed kind; consequently the placement
target never equals the source. -/
theorem C10_move_invariants (s : GameState) (m : Move)
    (hp : s.to_move ≠ Player.none) (hm : m ∈ Rules.legal_moves s) :
    (s.board.atXY m.sx m.sy).occupant = s.to_move ∧
    (s.board.atXY m.dx m.dy).occupant = Player.none ∧
    (m.place_tile = true →
      (s.board.atXY m.tx m.ty).occupant = Player.none ∧
      (s.board.atXY m.tx m.ty).tile = TileType.none ∧
      0 < tileCount (s.inventory s.to_move) m.tile ∧
      ¬(m.tx = m.sx ∧ m.ty = m.sy)) := by
  rcases List.mem_flatMap.1 hm with ⟨base, hb, hblock⟩
  rcases baseMoves_fields s base hb with ⟨hbp, _, _, _, _, _, hown⟩
  rcases baseMoves_dest s base hp hb with ⟨_, _, hdest⟩
  have hplace : ∀ T' : TileType, 0 < tileCount (s.inventory s.to_move) T' →
      m ∈ Rules.placements s.board base T' →
      (s.board.atXY m.sx m.sy).occupant = s.to_move ∧
      (s.board.atXY m.dx m.dy).occupant = Player.none ∧
      (m.place_tile = true →
        (s.board.atXY m.tx m.ty).occupant = Player.none ∧
        (s.board.atXY m.tx m.ty).tile = TileType.none ∧
        0 < tileCount (s.inventory s.to_move) m.tile ∧
        ¬(m.tx = m.sx ∧ m.ty = m.sy)) := by
    intro T' hc hmem
    rcases (mem_placements_iff _ _ _ _).1 hmem with ⟨y', _, x', _, hq, hmEq⟩
    subst hmEq
    refine ⟨hown, hdest, fun _ => ⟨hq.1, hq.2, hc, ?_⟩⟩
    rintro ⟨hex, hey⟩
    have : (s.board.atXY x' y').occupant = s.to_move := by
      rw [show x' = base.sx from hex, show y' = base.sy from hey]
      exact hown
    rw [hq.1] at this
    exact hp this.symm
  rcases List.mem_append.1 hblock with hmem1 | hmem2
  · rcases List.mem_append.1 hmem1 with hmem0 | hmemB
    · rcases List.mem_singleton.1 hmem0 with rfl
      refine ⟨hown, hdest, ?_⟩
      intro hpt
      rw [hbp] at hpt
      exact absurd hpt (by simp)
    · by_cases hbk : (s.inventory s.to_move).black > 0
      · rw [if_pos hbk] at hmemB
        exact hplace TileType.black hbk hmemB
      · rw [if_neg hbk] at hmemB
        exact absurd hmemB (List.not_mem_nil _)
  · by_cases hgr : (s.inventory s.to_move).gray > 0
    · rw [if_pos hgr] at hmem2
      exact hplace TileType.gray hgr hmem2
    · rw [if_neg hgr] at hmem2
      exact absurd hmem2 (List.not_mem_nil _)

/-- C10 witness: the invariants hold for a concrete placement move of the
lone-Black state. -/
theorem C10_move_invariants_witness :
    (loneBlackState.board.atXY (Rules.mkBaseMove 2 2 2 3).sx
        (Rules.mkBaseMove 2 2 2 3).sy).occupant = loneBlackState.to_move ∧
    (loneBlackState.board.atXY (Rules.mkBaseMove 2 2 2 3).dx
        (Rules.mkBaseMove 2 2 2 3).dy).occupant = Player.none ∧
    ((Rules.mkBaseMove 2 2 2 3).place_tile = true →
      (loneBlackState.board.atXY (Rules.mkBaseMove 2 2 2 3).tx
          (Rules.mkBaseMove 2 2 2 3).ty).occupant = Player.none ∧
      (loneBlackState.board.atXY (Rules.mkBaseMove 2 2 2 3).tx
          (Rules.mkBaseMove 2 2 2 3).ty).tile = TileType.none ∧
      0 < tileCount (loneBlackState.inventory loneBlackState.to_move)
            (Rules.mkBaseMove 2 2 2 3).tile ∧
      ¬((Rules.mkBaseMove 2 2 2 3).tx = (Rules.mkBaseMove 2 2 2 3).sx ∧
        (Rules.mkBaseMove 2 2 2 3).ty = (Rules.mkBaseMove 2 2 2 3).sy)) :=
  C10_move_invariants loneBlackState (Rules.mkBaseMove 2 2 2 3) (by decide) (by decide)

/-! Geometric description of the move table rays, written from the spec's
words for comparison with the transcribed table. -/

/-- C7: for every tile kind and origin, the transcribed move table lists per
direction exactly the linear-index offsets of the cells at steps 1, 2, 3, ...
up to the board edge along that direction, with None having the 4 orthogonal
directions, Black the 4 diagonals and Gray all 8; every listed offset lands
on an on-board cell of the same ray, so no offset ever leaves the board or
wraps across a rank or file. -/
theorem C7_move_table_geometry (t : Fin 3) (o : Fin 25) :
    (kMoveTableAt t.val o.val).dir_count = (dirVectors t.val).length ∧
    (Rules.usedDirs (kMoveTableAt t.val o.val)).map Rules.usedOffsets =
      (dirVectors t.val).map (specRay o.val) ∧
    ∀ d ∈ Rules.usedDirs (kMoveTableAt t.val o.val), ∀ off ∈ Rules.usedOffsets d,
      0 ≤ (o.val : Int) + off ∧ (o.val : Int) + off < 25 := by
  revert t o
  decide

/-- C8 counterexample: loading a file whose pattern count (5) differs from
the catalogue size (12) leaves the weights unchanged but NTuplePolicy::load
still reports success - no recoverable error reaches the caller. -/
theorem C8_counterexample :
    NTuplePolicy.load [[1]] (Option.some ⟨5, [[2]]⟩) = ([[1]], true) ∧
    (5 : Nat) ≠ tuples.length := by
  constructor
  · rfl
  · decide

/-- C8 amended: a pattern-count mismatch leaves every weight table unchanged
and the tables are replaced only when the count matches the catalogue size,
but no error is reported: NTupleNetwork::load returns silently and
NTuplePolicy::load reports success regardless. -/
theorem C8_load_mismatch (weights : List (List ℚ)) (f : WeightsFile) :
    (f.num_tuples ≠ tuples.length →
      NTupleNetwork.load weights (Option.some f) = weights) ∧
    (f.num_tuples = tuples.length →
      NTupleNetwork.load weights (Option.some f) = f.tables) ∧
    (NTuplePolicy.load weights (Option.some f)).2 = true := by
  refine ⟨?_, ?_, rfl⟩ <;> intro h <;> simp [NTupleNetwork.load, h]

/-- C9: the worker's parity rule: 1-based game number game_num + 1 odd means
the training game starts with White to move, even means Black. -/
theorem C9_starting_player_parity (game_num : Nat) :
    (trainingGameInitialState game_num).to_move = startPlayerForGame game_num ∧
    ((game_num + 1) % 2 = 1 → startPlayerForGame game_num = Player.white) ∧
    ((game_num + 1) % 2 = 0 → startPlayerForGame game_num = Player.black) := by
  refine ⟨rfl, ?_, ?_⟩ <;> intro h <;> simp [startPlayerForGame, h]

/-! The evaluator's index formula (C3) and the TD update (C4). -/

lemma to_index_eq_spec (t : NTuple) (s : GameState)
    (h : ∀ c ∈ t.cell_indices, c < 25) :
    t.to_index s 0 0 = specFinalIdx t.cell_indices s := by
  unfold NTuple.to_index specFinalIdx
  have hfold : ∀ (cells : List Nat) (acc : Nat), (∀ c ∈ cells, c < 25) →
      cells.foldl
        (fun idx cell_idx =>
          let dx : Nat := cell_idx % 5
          let dy : Nat := cell_idx / 5
          let x : Int := (0 : Int) + (dx : Int)
          let y : Int := (0 : Int) + (dy : Int)
          if x < 0 ∨ 5 ≤ x ∨ y < 0 ∨ 5 ≤ y then idx * 9
          else idx * 9 + NTuple.encode_cell (s.board.atXY x.toNat y.toNat)) acc =
      cells.foldl (fun acc c => acc * 9 + NTuple.encode_cell (s.board.get c)) acc := by
    intro cells
    induction cells with
    | nil => intro acc _; rfl
    | cons c rest ih =>
      intro acc hc
      have hc25 : c < 25 := hc c (List.mem_cons_self c rest)
      have hstep :
          (if ((0 : Int) + ((c % 5 : Nat) : Int)) < 0 ∨ 5 ≤ ((0 : Int) + ((c % 5 : Nat) : Int)) ∨
              ((0 : Int) + ((c / 5 : Nat) : Int)) < 0 ∨ 5 ≤ ((0 : Int) + ((c / 5 : Nat) : Int))
           then acc * 9
           else acc * 9 + NTuple.encode_cell
             (s.board.atXY ((0 : Int) + ((c % 5 : Nat) : Int)).toNat
               ((0 : Int) + ((c / 5 : Nat) : Int)).toNat)) =
          acc * 9 + NTuple.encode_cell (s.board.get c) := by
        have hx : c % 5 < 5 := Nat.mod_lt _ (by omega)
        have hy : c / 5 < 5 := by omega
        rw [if_neg (by push_cast; omega)]
        have h1 : ((0 : Int) + ((c % 5 : Nat) : Int)).toNat = c % 5 := by omega
        have h2 : ((0 : Int) + ((c / 5 : Nat) : Int)).toNat = c / 5 := by omega
        rw [h1, h2]
        unfold Board.atXY
        have : c / 5 * 5 + c % 5 = c := by omega
        rw [this]
      simp only [List.foldl_cons]
      rw [hstep] at *
      exact ih _ (fun c' hc' => hc c' (List.mem_cons_of_mem _ hc'))
  rw [hfold _ 0 h]
  unfold NTuple.encode_tile_inventory
  ring_nf
  omega

/-- C3: evaluate is the sum over the 12 catalogue patterns of the weight at
that pattern's spec index of the canonicalised state, negated exactly when
White is to move. -/
theorem C3_evaluate_formula (net : NTupleNetwork) (s : GameState) :
    net.evaluate s = (if s.to_move = Player.white then (-1 : ℚ) else 1) *
      ∑ i : Fin 12, net.weights i (specFinalIdx (tupleAt i).cell_indices (canonicalState s)) := by
  have hcells : ∀ i : Fin 12, ∀ c ∈ (tupleAt i).cell_indices, c < 25 := by decide
  unfold NTupleNetwork.evaluate NTupleNetwork.rawSum
  have hsum : ∑ i : Fin 12, net.weights i ((tupleAt i).to_index (canonicalState s) 0 0) =
      ∑ i : Fin 12, net.weights i (specFinalIdx (tupleAt i).cell_indices (canonicalState s)) :=
    Finset.sum_congr rfl (fun i _ => by rw [to_index_eq_spec _ _ (hcells i)])
  rw [hsum]
  by_cases hw : s.to_move = Player.white
  · rw [if_pos hw, if_pos hw]; ring
  · rw [if_neg hw, if_neg hw]; ring

lemma tuples_length_q : ((tuples.length : ℚ)) = 12 := by
  norm_num [tuples, base_patterns]

/-- After a TD update, re-evaluating the same state gives exactly
old + lr * (target - old): each pattern's weight moved by (lr/12) * error in
the raw frame, and both calls canonicalise the state identically. -/
lemma evaluate_td_update (net : NTupleNetwork) (s : GameState) (t lr : ℚ) :
    (net.td_update s t lr).evaluate s = net.evaluate s + lr * (t - net.evaluate s) := by
  unfold NTupleNetwork.evaluate NTupleNetwork.td_update NTupleNetwork.rawSum
  simp only [Function.update_same]
  rw [Finset.sum_add_distrib, Finset.sum_const, Finset.card_univ, Fintype.card_fin,
    nsmul_eq_mul, tuples_length_q]
  by_cases hw : s.to_move = Player.white
  · simp only [if_pos hw]
    push_cast
    ring
  · simp only [if_neg hw]
    push_cast
    ring

/-- A fresh network evaluates the initial state to exactly 1/2. -/
lemma evaluate_fresh_reset : NTupleNetwork.fresh.evaluate GameState.reset = 1 / 2 := by
  unfold NTupleNetwork.evaluate NTupleNetwork.rawSum NTupleNetwork.fresh
  rw [if_neg (by decide)]
  rw [Finset.sum_const, Finset.card_univ, Fintype.card_fin, nsmul_eq_mul, tuples_length_q]
  norm_num

/-- C4 counterexample: with learning rate 4 (> 0, as the claim allows) the
update overshoots: the re-evaluated value 5/2 is farther from the target 1
than the old value 1/2 was. -/
theorem C4_counterexample :
    NTupleNetwork.fresh.evaluate GameState.reset ≠ 1 ∧ (0 : ℚ) < 4 ∧
    ¬(|(NTupleNetwork.fresh.td_update GameState.reset 1 4).evaluate GameState.reset - 1| <
      |NTupleNetwork.fresh.evaluate GameState.reset - 1|) := by
  have h2 := evaluate_td_update NTupleNetwork.fresh GameState.reset 1 4
  rw [evaluate_fresh_reset] at h2
  refine ⟨by rw [evaluate_fresh_reset]; norm_num, by norm_num, ?_⟩
  rw [h2, evaluate_fresh_reset]
  rw [show ((1 : ℚ) / 2 + 4 * (1 - 1 / 2) - 1) = 3 / 2 by ring,
    show ((1 : ℚ) / 2 - 1) = -(1 / 2) by ring]
  rw [abs_of_pos (by norm_num), abs_neg, abs_of_pos (by norm_num)]
  norm_num

/-- C4 amended: for 0 < lr < 2 (instead of all lr > 0) a TD update moves the
re-evaluated value strictly toward the target whenever it differs from it;
and on a fresh network the initial state evaluates to 0.5, one update with
target 1.0 and lr 0.1 raises it, one with target -1.0 lowers it below 0.5. -/
theorem C4_td_update_moves_toward (net : NTupleNetwork) (s : GameState) (t lr : ℚ)
    (hne : net.evaluate s ≠ t) (h0 : 0 < lr) (h2 : lr < 2) :
    |(net.td_update s t lr).evaluate s - t| < |net.evaluate s - t| ∧
    NTupleNetwork.fresh.evaluate GameState.reset = 1 / 2 ∧
    1 / 2 < (NTupleNetwork.fresh.td_update GameState.reset 1 (1 / 10)).evaluate GameState.reset ∧
    (NTupleNetwork.fresh.td_update GameState.reset (-1) (1 / 10)).evaluate GameState.reset
      < 1 / 2 := by
  refine ⟨?_, evaluate_fresh_reset, ?_, ?_⟩
  · rw [evaluate_td_update]
    have hfact : net.evaluate s + lr * (t - net.evaluate s) - t =
        (1 - lr) * (net.evaluate s - t) := by ring
    rw [hfact, abs_mul]
    have hpos : 0 < |net.evaluate s - t| := abs_pos.2 (sub_ne_zero.2 hne)
    have hlt : |1 - lr| < 1 := abs_lt.2 ⟨by linarith, by linarith⟩
    calc |1 - lr| * |net.evaluate s - t| < 1 * |net.evaluate s - t| :=
          mul_lt_mul_of_pos_right hlt hpos
      _ = |net.evaluate s - t| := one_mul _
  · rw [evaluate_td_update, evaluate_fresh_reset]
    norm_num
  · rw [evaluate_td_update, evaluate_fresh_reset]
    norm_num

/-- C4 witness: at the fresh network, initial state, target 1 and lr 1/10 the
amended statement holds; the hypotheses are discharged from the computed
value 1/2. -/
theorem C4_td_update_moves_toward_witness :
    |(NTupleNetwork.fresh.td_update GameState.reset 1 (1 / 10)).evaluate GameState.reset - 1| <
      |NTupleNetwork.fresh.evaluate GameState.reset - 1| ∧
    NTupleNetwork.fresh.evaluate GameState.reset = 1 / 2 ∧
    1 / 2 < (NTupleNetwork.fresh.td_update GameState.reset 1 (1 / 10)).evaluate GameState.reset ∧
    (NTupleNetwork.fresh.td_update GameState.reset (-1) (1 / 10)).evaluate GameState.reset
      < 1 / 2 :=
  C4_td_update_moves_toward NTupleNetwork.fresh GameState.reset 1 (1 / 10)
    (by rw [evaluate_fresh_reset]; norm_num) (by norm_num) (by norm_num)

/-! Order and injectivity facts for the canonicalisation (C5). -/

lemma lexLt_irrefl : ∀ l : List Nat, lexLt l l = false
  | [] => rfl
  | a :: as => by
    simp only [lexLt, lt_irrefl, if_false]
    exact lexLt_irrefl as

lemma lexLt_asymm : ∀ a b : List Nat, lexLt a b = true → lexLt b a = false := by
  intro a
  induction a with
  | nil =>
    intro b h
    cases b with
    | nil => simp [lexLt] at h
    | cons c cs => rfl
  | cons x xs ih =>
    intro b h
    cases b with
    | nil => simp [lexLt] at h
    | cons c cs =>
      unfold lexLt at h ⊢
      by_cases h1 : x < c
      · rw [if_neg (by omega), if_pos h1]
      · rw [if_neg h1] at h
        by_cases h2 : c < x
        · rw [if_pos h2] at h
          exact absurd h (by simp)
        · rw [if_neg h2] at h
          rw [if_neg h2, if_neg h1]
          exact ih cs h

lemma lexLt_eq_of_both_false : ∀ a b : List Nat, a.length = b.length →
    lexLt a b = false → lexLt b a = false → a = b := by
  intro a
  induction a with
  | nil =>
    intro b hlen _ _
    cases b with
    | nil => rfl
    | cons c cs => simp at hlen
  | cons x xs ih =>
    intro b hlen h1 h2
    cases b with
    | nil => simp at hlen
    | cons c cs =>
      unfold lexLt at h1 h2
      by_cases hxc : x < c
      · rw [if_pos hxc] at h1
        exact absurd h1 (by simp)
      · rw [if_neg hxc] at h1
        by_cases hcx : c < x
        · rw [if_pos hcx] at h2
          exact absurd h2 (by simp)
        · rw [if_neg hcx] at h1
          rw [if_neg hcx, if_neg hxc] at h2
          have hx : x = c := by omega
          have := ih cs (by simpa using hlen) h1 h2
          rw [hx, this]

lemma encode_cell_inj : ∀ c1 c2 : Cell,
    NTuple.encode_cell c1 = NTuple.encode_cell c2 → c1 = c2 := by
  rintro ⟨o1, t1⟩ ⟨o2, t2⟩ h
  cases o1 <;> cases o2 <;> cases t1 <;> cases t2 <;>
    simp_all [NTuple.encode_cell, Player.code, TileType.code]

lemma boardCode_inj {b1 b2 : Board} (h : boardCode b1 = boardCode b2) : b1 = b2 := by
  funext i
  have h1 := congrArg (fun l : List Nat => l.getD i.val 0) h
  simp only [boardCode] at h1
  rw [List.getD_eq_getElem _ _ (by simp), List.getD_eq_getElem _ _ (by simp)] at h1
  simp only [List.getElem_map, List.getElem_range] at h1
  have hcell := encode_cell_inj _ _ h1
  unfold Board.get at hcell
  rw [dif_pos i.isLt, dif_pos i.isLt] at hcell
  simpa using hcell

lemma boardCode_length (b : Board) : (boardCode b).length = 25 := by
  simp [boardCode]

lemma flipIdx_flipIdx : ∀ i : Fin 25, flipIdx (flipIdx i) = i := by decide

lemma flip_flip (b : Board) :
    transform_board (transform_board b Symmetry.flipH) Symmetry.flipH = b := by
  funext i
  show b (flipIdx (flipIdx i)) = b i
  rw [flipIdx_flipIdx]

lemma canonicalBoard_def (b : Board) : canonicalBoard b =
    if lexLt (boardCode (transform_board b Symmetry.flipH)) (boardCode b) = true
    then transform_board b Symmetry.flipH else b := by
  unfold canonicalBoard get_canonical_symmetry
  by_cases h : lexLt (boardCode (transform_board b Symmetry.flipH)) (boardCode b) = true
  · rw [if_pos h, if_pos h]
  · rw [if_neg h, if_neg h]
    rfl

lemma canonicalBoard_props (c : Board) :
    (canonicalBoard c = c ∨ canonicalBoard c = transform_board c Symmetry.flipH) ∧
    lexLt (boardCode c) (boardCode (canonicalBoard c)) = false ∧
    lexLt (boardCode (transform_board c Symmetry.flipH)) (boardCode (canonicalBoard c)) = false ∧
    (boardCode (transform_board c Symmetry.flipH) = boardCode c → canonicalBoard c = c) ∧
    canonicalBoard (transform_board c Symmetry.flipH) = canonicalBoard c := by
  have hdef := canonicalBoard_def c
  by_cases hlt : lexLt (boardCode (transform_board c Symmetry.flipH)) (boardCode c) = true
  · have hc : canonicalBoard c = transform_board c Symmetry.flipH := by
      rw [hdef, if_pos hlt]
    have hasymm := lexLt_asymm _ _ hlt
    refine ⟨Or.inr hc, ?_, ?_, ?_, ?_⟩
    · rw [hc]; exact hasymm
    · rw [hc]; exact lexLt_irrefl _
    · intro hcode
      rw [hcode, lexLt_irrefl] at hlt
      exact absurd hlt (by simp)
    · rw [canonicalBoard_def (transform_board c Symmetry.flipH), flip_flip,
        if_neg (by rw [hasymm]; simp), hc]
  · have hlt' : lexLt (boardCode (transform_board c Symmetry.flipH)) (boardCode c) = false :=
      Bool.eq_false_iff.2 hlt
    have hc : canonicalBoard c = c := by rw [hdef, if_neg hlt]
    refine ⟨Or.inl hc, ?_, ?_, fun _ => hc, ?_⟩
    · rw [hc]; exact lexLt_irrefl _
    · rw [hc]; exact hlt'
    · rw [canonicalBoard_def (transform_board c Symmetry.flipH), flip_flip]
      by_cases hlt2 : lexLt (boardCode c) (boardCode (transform_board c Symmetry.flipH)) = true
      · rw [if_pos hlt2, hc]
      · rw [if_neg hlt2, hc]
        exact boardCode_inj (lexLt_eq_of_both_false _ _
          (by rw [boardCode_length, boardCode_length]) hlt' (Bool.eq_false_iff.2 hlt2))

lemma canonicalState_flip (s : GameState) :
    canonicalState { s with board := transform_board s.board Symmetry.flipH } =
      canonicalState s := by
  unfold canonicalState
  simp only [(canonicalBoard_props s.board).2.2.2.2]

/-- C5: canonicalisation picks, of a board and its horizontal flip, the one
whose linearised cell-code sequence is lexicographically no larger, choosing
identity on ties; it is idempotent and flip-invariant, and consequently
evaluate does not change when the board is mirrored with inventories and the
side to move held fixed. -/
theorem C5_canonicalisation (b : Board) (net : NTupleNetwork) (s : GameState) :
    (canonicalBoard b = b ∨ canonicalBoard b = transform_board b Symmetry.flipH) ∧
    lexLt (boardCode b) (boardCode (canonicalBoard b)) = false ∧
    lexLt (boardCode (transform_board b Symmetry.flipH)) (boardCode (canonicalBoard b)) = false ∧
    (boardCode (transform_board b Symmetry.flipH) = boardCode b → canonicalBoard b = b) ∧
    canonicalBoard (canonicalBoard b) = canonicalBoard b ∧
    canonicalBoard (transform_board b Symmetry.flipH) = canonicalBoard b ∧
    net.evaluate { s with board := transform_board s.board Symmetry.flipH } = net.evaluate s := by
  rcases canonicalBoard_props b with ⟨h1, h2, h3, h4, h6⟩
  have h5 : canonicalBoard (canonicalBoard b) = canonicalBoard b := by
    rcases h1 with hid | hfl
    · rw [hid]
      exact hid
    · rw [hfl, h6, ← hfl]
  refine ⟨h1, h2, h3, h4, h5, h6, ?_⟩
  unfold NTupleNetwork.evaluate
  rw [canonicalState_flip s]

/-! The 29-element array codec (C6). -/

lemma decode_cell_eq_some (v : Int) (h : 0 ≤ v ∧ v ≤ 8) :
    GameSession.decode_cell v = Option.some (decodedCell v) := by
  unfold GameSession.decode_cell decodedCell
  rw [if_neg (by omega)]

lemma encode_decodedCell (v : Int) (h : 0 ≤ v ∧ v ≤ 8) :
    GameSession.encode_cell (decodedCell v) = v := by
  have hb : v.toNat ≤ 8 := by omega
  have hdiv : v.toNat / 3 ≤ 2 := by omega
  have hmod : v.toNat % 3 ≤ 2 := by omega
  have hp : (playerOfCode (v.toNat / 3)).code = v.toNat / 3 := by
    unfold playerOfCode
    interval_cases h : (v.toNat / 3) <;> simp [Player.code]
  have ht : (tileOfCode (v.toNat % 3)).code = v.toNat % 3 := by
    unfold tileOfCode
    interval_cases h : (v.toNat % 3) <;> simp [TileType.code]
  unfold GameSession.encode_cell decodedCell
  rw [hp, ht]
  have : v.toNat / 3 * 3 + v.toNat % 3 = v.toNat := by omega
  rw [this]
  omega

lemma applyCells_spec (a : List Int) : ∀ (l : List Nat) (st : GameState),
    (∀ i ∈ l, 0 ≤ a.getD i 0 ∧ a.getD i 0 ≤ 8) →
    l.foldl (fun acc i =>
      match acc with
      | (s, false) => (s, false)
      | (s, true) =>
        match GameSession.decode_cell (a.getD i 0) with
        | Option.none => (s, false)
        | Option.some c => ({ s with board := s.board.set i c }, true)) (st, true) =
    ({ st with board := fun j =>
        if j.val ∈ l then decodedCell (a.getD j.val 0) else st.board j }, true) := by
  intro l
  induction l with
  | nil =>
    intro st _
    simp only [List.foldl_nil, List.not_mem_nil, if_false]
  | cons i rest ih =>
    intro st hb
    have hi := hb i (List.mem_cons_self i rest)
    rw [List.foldl_cons]
    rw [show (match ((st, true) : GameState × Bool) with
      | (s, false) => (s, false)
      | (s, true) =>
        match GameSession.decode_cell (a.getD i 0) with
        | Option.none => (s, false)
        | Option.some c => ({ s with board := s.board.set i c }, true)) =
      ({ st with board := st.board.set i (decodedCell (a.getD i 0)) }, true) by
        rw [decode_cell_eq_some _ hi]]
    rw [ih _ (fun j hj => hb j (List.mem_cons_of_mem _ hj))]
    have hbd : (fun j : Fin 25 => if j.val ∈ rest then decodedCell (a.getD j.val 0)
        else Board.set st.board i (decodedCell (a.getD i 0)) j) =
        (fun j : Fin 25 => if j.val ∈ i :: rest then decodedCell (a.getD j.val 0)
        else st.board j) := by
      funext j
      unfold Board.set
      by_cases hjr : j.val ∈ rest
      · rw [if_pos hjr, if_pos (List.mem_cons_of_mem _ hjr)]
      · rw [if_neg hjr]
        by_cases hji : j.val = i
        · rw [if_pos hji, if_pos (by rw [hji]; exact List.mem_cons_self i rest), hji]
        · rw [if_neg hji, if_neg (by
            intro hmem
            rcases List.mem_cons.1 hmem with h | h
            · exact hji h
            · exact hjr h)]
    show ({ st with board := fun j : Fin 25 => if j.val ∈ rest then decodedCell (a.getD j.val 0)
        else Board.set st.board i (decodedCell (a.getD i 0)) j }, true) =
      ({ st with board := fun j : Fin 25 => if j.val ∈ i :: rest then
        decodedCell (a.getD j.val 0) else st.board j }, true)
    rw [hbd]

lemma cellsOk_iff (a : List Int) :
    cellsOk a = true ↔ ∀ i < 25, 0 ≤ a.getD i 0 ∧ a.getD i 0 ≤ 8 := by
  unfold cellsOk
  rw [List.all_eq_true]
  constructor
  · intro h i hi
    have := h i (List.mem_range.2 hi)
    simp only [Bool.and_eq_true, decide_eq_true_eq] at this
    exact this
  · intro h i hi
    simp only [Bool.and_eq_true, decide_eq_true_eq]
    exact h i (List.mem_range.1 hi)

lemma invOk_iff (a : List Int) :
    invOk a = true ↔
      (0 ≤ a.getD 25 0 ∧ a.getD 25 0 ≤ 3 ∧ 0 ≤ a.getD 26 0 ∧ a.getD 26 0 ≤ 1 ∧
       0 ≤ a.getD 27 0 ∧ a.getD 27 0 ≤ 3 ∧ 0 ≤ a.getD 28 0 ∧ a.getD 28 0 ≤ 1) := by
  unfold invOk
  rw [decide_eq_true_eq]

lemma array_to_board_success (st : GameState) (a : List Int)
    (hlen : a.length = 29) (hcells : cellsOk a = true) (hinv : invOk a = true) :
    array_to_board st a =
      ({ st with
          board := fun j => decodedCell (a.getD j.val 0),
          inv_black := ⟨(a.getD 25 0).toNat, (a.getD 26 0).toNat⟩,
          inv_white := ⟨(a.getD 27 0).toNat, (a.getD 28 0).toNat⟩ }, true) := by
  unfold array_to_board
  rw [if_neg (by simp [hlen]), if_neg (by simp [hcells]), if_neg (by simp [hinv])]
  unfold applyCells
  rw [applyCells_spec a (List.range 25) st
    (fun i hi => (cellsOk_iff a).1 hcells i (List.mem_range.1 hi))]
  refine congrArg (fun bd => ((⟨bd, st.to_move, _, _⟩ : GameState), true)) ?_
  funext j
  show (if j.val ∈ List.range 25 then decodedCell (a.getD j.val 0) else st.board j) =
    decodedCell (a.getD j.val 0)
  rw [if_pos (List.mem_range.2 j.isLt)]

lemma array_to_board_failure (st : GameState) (a : List Int) (h : ¬ valid29 a) :
    array_to_board st a = (st, false) := by
  unfold array_to_board
  by_cases hlen : a.length = 29
  · by_cases hc : cellsOk a = true
    · by_cases hi : invOk a = true
      · exact absurd ⟨hlen, (cellsOk_iff a).1 hc, (invOk_iff a).1 hi⟩ h
      · rw [if_neg (by simp [hlen]), if_neg (by simp [hc]), if_pos (by simp [hi])]
    · rw [if_neg (by simp [hlen]), if_pos (by simp [hc])]
  · rw [if_pos hlen]

lemma loops25 {α : Type} (f : Nat → α) :
    (List.range 5).flatMap (fun y => (List.range 5).map (fun x => f (y * 5 + x))) =
      (List.range 25).map f := by
  rfl

lemma list29_decomp (a : List Int) (hlen : a.length = 29) :
    a = (List.range 25).map (fun i => a.getD i 0) ++
      [a.getD 25 0, a.getD 26 0, a.getD 27 0, a.getD 28 0] := by
  apply List.ext_getElem
  · simp [hlen]
  · intro i h1 h2
    by_cases hi : i < 25
    · rw [List.getElem_append_left (by simpa using hi)]
      simp only [List.getElem_map, List.getElem_range]
      rw [List.getD_eq_getElem _ _ (by omega)]
    · have hi' : 25 ≤ i := by omega
      have hi29 : i < 29 := by rw [← hlen]; exact h1
      interval_cases i <;>
        (rw [List.getElem_append_right (by simp)]
         exact (List.getD_eq_getElem a 0 (by omega)).symm)

/-- Decoding then re-encoding a valid array returns it exactly. -/
lemma board_to_array_roundtrip (st : GameState) (a : List Int) (hv : valid29 a) :
    board_to_array (array_to_board st a).1 = a := by
  obtain ⟨hlen, hc, hi⟩ := hv
  rw [array_to_board_success st a hlen ((cellsOk_iff a).2 hc) ((invOk_iff a).2 hi)]
  unfold board_to_array
  have hcellpart :
      (List.range 5).flatMap (fun y => (List.range 5).map (fun x =>
        GameSession.encode_cell (Board.atXY (fun j : Fin 25 => decodedCell (a.getD j.val 0)) x y))) =
      (List.range 25).map (fun i => a.getD i 0) := by
    rw [show ((List.range 5).flatMap (fun y => (List.range 5).map (fun x =>
        GameSession.encode_cell (Board.atXY (fun j : Fin 25 => decodedCell (a.getD j.val 0)) x y)))) =
      ((List.range 25).map (fun i =>
        GameSession.encode_cell (Board.get (fun j : Fin 25 => decodedCell (a.getD j.val 0)) i))) from
      loops25 (fun i => GameSession.encode_cell
        (Board.get (fun j : Fin 25 => decodedCell (a.getD j.val 0)) i))]
    refine List.map_congr_left ?_
    intro i hi25
    have hi25' : i < 25 := List.mem_range.1 hi25
    have hget : Board.get (fun j : Fin 25 => decodedCell (a.getD j.val 0)) i =
        decodedCell (a.getD i 0) := by
      unfold Board.get
      rw [dif_pos hi25']
    rw [hget, encode_decodedCell _ (hc i hi25')]
  rw [hcellpart]
  have h25 : ((a.getD 25 0).toNat : Int) = a.getD 25 0 := Int.toNat_of_nonneg hi.1
  have h26 : ((a.getD 26 0).toNat : Int) = a.getD 26 0 := Int.toNat_of_nonneg hi.2.2.1
  have h27 : ((a.getD 27 0).toNat : Int) = a.getD 27 0 := Int.toNat_of_nonneg hi.2.2.2.2.1
  have h28 : ((a.getD 28 0).toNat : Int) = a.getD 28 0 :=
    Int.toNat_of_nonneg hi.2.2.2.2.2.2.1
  rw [show (({ st with
      board := fun j => decodedCell (a.getD j.val 0),
      inv_black := ⟨(a.getD 25 0).toNat, (a.getD 26 0).toNat⟩,
      inv_white := ⟨(a.getD 27 0).toNat, (a.getD 28 0).toNat⟩ } : GameState)).inv_black.black
      = (a.getD 25 0).toNat from rfl]
  simp only [h25, h26, h27, h28]
  exact (list29_decomp a hlen).symm

/-- C6: array_to_board succeeds exactly on arrays of length 29 whose cells
are in 0..8 and whose inventory slots are in range; a rejected array leaves
the state untouched, and a successful decode re-encodes to exactly the same
array (to_move is not carried). -/
theorem C6_array_codec (st : GameState) (a : List Int) :
    ((array_to_board st a).2 = true ↔ valid29 a) ∧
    ((array_to_board st a).2 = false → (array_to_board st a).1 = st) ∧
    ((array_to_board st a).2 = true → board_to_array (array_to_board st a).1 = a) := by
  by_cases hv : valid29 a
  · obtain ⟨hlen, hc, hi⟩ := hv
    have hsucc := array_to_board_success st a hlen ((cellsOk_iff a).2 hc) ((invOk_iff a).2 hi)
    refine ⟨?_, ?_, ?_⟩
    · rw [hsucc]
      simp only [true_iff]
      exact ⟨hlen, hc, hi⟩
    · rw [hsucc]
      intro hfalse
      exact absurd hfalse (by simp)
    · intro _
      exact board_to_array_roundtrip st a ⟨hlen, hc, hi⟩
  · rw [array_to_board_failure st a hv]
    refine ⟨?_, fun _ => rfl, ?_⟩
    · exact ⟨fun h => absurd h (by simp), fun h => absurd h hv⟩
    · intro htrue
      exact absurd htrue (by simp)

end Contrast
